import Mathlib

/-!
Verification development for the PDF overlay-annotation editor
(`src/componets/pdf/pdf_editor.tsx`, `src/componets/pdf/pdf_viewer.tsx`).

The editor keeps per-page mutable maps (page containers, overlay canvases,
2D contexts, annotation lists), a transient gesture state
(`isDrawingRef`, `startCoordsRef`, `currentCoordsRef`) and an active tool.
We embed that state as `EditorState` with the maps as functions
`Nat → Option _` / `Nat → List _` (the JS `Map`s keyed by page index) and
canvas pixel data as a display list of draw commands.  Pixel coordinates
are embedded as integers: the handlers only apply `min`/`max`/`abs`/
subtraction/comparison to them, which are exact on the integral inputs the
properties quantify over.  The DOM environment is idealised in two places,
noted at the definitions: `canvas.getContext('2d')` succeeds, and every
page container exposes a text-selection layer.

The React render model is embedded explicitly: a registry emission
(`handlePageContainerRefsChange`) only assigns the mapping to the
`pageContainerRefs` ref, and mutating a ref never re-renders the
component, so the canvas-lifecycle effect does NOT run at emission time.
The effect runs again only on a state-driven render — `setActiveTool` in
`handleToolChange` or `setSelectedText` in the text-selection handler —
at which point its dependency comparison sees the changed
`pageContainerRefs.current` and the effect fires.  Until such a render,
surfaces, contexts, annotation deletion and text-layer state lag behind
the latest emitted mapping.
-/

namespace PdfView

/-- A 2D point in surface-local pixel coordinates. -/
structure Point where
  x : ℤ
  y : ℤ
deriving DecidableEq, Repr

/-- `type Tool = 'none' | 'blur' | 'erase' | 'addText'` from pdf_editor.tsx. -/
inductive Tool
  | none
  | blur
  | erase
  | addText
deriving DecidableEq, Repr

/-- CSS cursor values the editor assigns to overlay canvases. -/
inductive Cursor
  | default
  | crosshair
  | text
deriving DecidableEq, Repr

/-- Payload of one annotation record (the `data` field in pdf_editor.tsx):
blur regions store the two drag corners, erase strokes an ordered point
path, text labels an anchor point and the text. -/
inductive AnnData
  | blurRegion (startX startY endX endY : ℤ)
  | eraseStroke (path : List Point)
  | textLabel (x y : ℤ) (text : String)
deriving DecidableEq, Repr

/-- One annotation record: `{ id, pageIndex, type, data }`.  The uuid is
modelled as a Nat drawn from a fresh counter. -/
structure Annot where
  id : Nat
  pageIndex : Nat
  data : AnnData
deriving DecidableEq, Repr

/-- Whether a record is an erase stroke (`type === 'erase' && data.path`). -/
def Annot.isErase : Annot → Bool
  | ⟨_, _, .eraseStroke _⟩ => true
  | _ => false

/-- Abstract canvas-2D draw command; a canvas bitmap is modelled as the
list of commands painted since it was last cleared. -/
inductive DrawCmd
  | blurRect (x y w h : ℤ)
  | strokePolyline (pts : List Point)
  | fillText (x y : ℤ) (text : String)
deriving DecidableEq, Repr

/-- `drawBlurOverlay`: normalises the two corners into x/y/width/height and
fills that rectangle (blur filter + fixed semi-opaque fill). -/
def drawBlurOverlay (startX startY endX endY : ℤ) : DrawCmd :=
  .blurRect (min startX endX) (min startY endY)
    (abs (startX - endX)) (abs (startY - endY))

/-- `drawAnnotation` restricted to its effect on the target canvas: the
draw commands it issues for one annotation record. -/
def drawAnnotCmds : AnnData → List DrawCmd
  | .blurRegion sx sy ex ey => [drawBlurOverlay sx sy ex ey]
  | .eraseStroke path =>
      -- beginPath / moveTo / lineTo… / stroke: an empty path paints nothing
      if path.isEmpty then [] else [.strokePolyline path]
  | .textLabel x y t => [.fillText x y t]

/-- Replaying a whole per-page annotation list in order
(`pageAnnotations.forEach(ann => drawAnnotation(pageIndex, ann))`). -/
def renderAnnotations (anns : List Annot) : List DrawCmd :=
  (anns.map (fun a => drawAnnotCmds a.data)).flatten

/-- An overlay canvas: raster size, pointer-events/cursor style, and its
current bitmap as a display list.  `pointerEvents = true` models the CSS
value `'auto'`, `false` models `'none'`. -/
structure Surface where
  width : ℤ
  height : ℤ
  pointerEvents : Bool
  cursor : Cursor
  content : List DrawCmd
deriving DecidableEq, Repr

/-- A page container handle as the editor sees it: its pixel box
(`offsetWidth`/`offsetHeight`) and the pointer-events style of its
`.rpv-core__text-layer` child (`true` = `'auto'`, the DOM default for a
freshly mounted page). -/
structure Container where
  offsetWidth : ℤ
  offsetHeight : ℤ
  textLayerPointerEvents : Bool
deriving DecidableEq, Repr

/-- The whole editor state: the four per-page maps, the active tool, the
transient gesture refs and the fresh-id counter. -/
@[ext]
structure EditorState where
  activeTool : Tool
  containers : Nat → Option Container
  canvases : Nat → Option Surface
  contexts : Nat → Bool
  annotations : Nat → List Annot
  isDrawing : Bool
  startCoords : Option Point
  currentCoords : Option Point
  nextId : Nat

/-- Initial state: no pages known, no canvases, no annotations, tool
`none`, no gesture in flight. -/
def initState : EditorState :=
  { activeTool := .none
    containers := fun _ => Option.none
    canvases := fun _ => Option.none
    contexts := fun _ => false
    annotations := fun _ => []
    isDrawing := false
    startCoords := Option.none
    currentCoords := Option.none
    nextId := 0 }

/-- Point update of the canvas map (`canvasRefs.current.set(p, c)`). -/
def setCanvas (f : Nat → Option Surface) (p : Nat) (c : Surface) :
    Nat → Option Surface :=
  fun q => if q = p then some c else f q

/-- Point update of the annotation map (`annotationsRef.current.set(p, l)`). -/
def setAnns (f : Nat → List Annot) (p : Nat) (l : List Annot) :
    Nat → List Annot :=
  fun q => if q = p then l else f q

/-- `redrawPageAnnotations(pageIndex)`: if the page has a context and a
canvas, clear the canvas fully and replay every stored annotation in
order; otherwise do nothing. -/
def redrawPageAnnotations (s : EditorState) (p : Nat) : EditorState :=
  match s.canvases p, s.contexts p with
  | some c, true =>
      let c1 : Surface := { c with content := renderAnnotations (s.annotations p) }
      { s with canvases := setCanvas s.canvases p c1 }
  | _, _ => s

/-- The live blur preview painted during `mousemove` on top of the freshly
replayed annotations (`drawBlurOverlay(context, start…, bounded…)`). -/
def blurPreview (s : EditorState) (p : Nat) (st cur : Point) : EditorState :=
  match s.canvases p with
  | some c =>
      let c1 : Surface :=
        { c with content := c.content ++ [drawBlurOverlay st.x st.y cur.x cur.y] }
      { s with canvases := setCanvas s.canvases p c1 }
  | Option.none => s

/-- `isDrawingTool` as computed in the lifecycle effect and in
`handleToolChange`: `tool === 'blur' || tool === 'erase' || tool === 'addText'`. -/
def isDrawingTool : Tool → Bool
  | .blur => true
  | .erase => true
  | .addText => true
  | .none => false

/-- Cursor chosen for a tool: crosshair for blur/erase, text for addText,
default otherwise. -/
def cursorFor : Tool → Cursor
  | .blur => .crosshair
  | .erase => .crosshair
  | .addText => .text
  | .none => .default

/-- One step of the canvas-lifecycle effect for a page that is present in
the registry mapping: reuse the existing canvas or create a fresh blank
one (`document.createElement('canvas')`; `getContext('2d')` is modelled as
succeeding), then set its raster size to the container's pixel box —
assigning `canvas.width`/`canvas.height` clears the bitmap — set the
tool-dependent pointer-events and cursor styles, and redraw every stored
annotation of the page. -/
def lifecyclePage (tool : Tool) (anns : List Annot) (cont : Container)
    (existing : Option Surface) : Surface :=
  let base : Surface :=
    match existing with
    | some c => c
    | Option.none =>
        { width := 0, height := 0, pointerEvents := false
          cursor := .default, content := [] }
  { base with
      width := cont.offsetWidth
      height := cont.offsetHeight
      pointerEvents := isDrawingTool tool
      cursor := cursorFor tool
      content := renderAnnotations anns }

/-- The canvas-lifecycle `useEffect`: for every page index in
`pageContainerRefs.current`, create/update its canvas (and register its 2D
context); for every canvas whose index is absent from the mapping, remove
the canvas, its context and the page's annotation list.  Although its
dependency list names `pageContainerRefs.current`, the effect only runs
when a render happens (a ref mutation alone never re-renders), so it is
invoked by the render-triggering operations below, not by registry
emissions. -/
def canvasLifecycle (s : EditorState) : EditorState :=
  { s with
      canvases := fun p =>
        match s.containers p with
        | some cont => some (lifecyclePage s.activeTool (s.annotations p) cont (s.canvases p))
        | Option.none => Option.none
      contexts := fun p => (s.containers p).isSome
      annotations := fun p =>
        if (s.containers p).isSome then s.annotations p else [] }

/-- A registry update as the editor actually receives it:
`handlePageContainerRefsChange` only assigns the emitted index→container
mapping to the `pageContainerRefs` ref.  A ref mutation never re-renders
the component, so the canvas-lifecycle effect does NOT run here —
surfaces, contexts, annotation deletion and text-layer state keep their
old values until the next state-driven render. -/
def applyRegistryUpdate (s : EditorState) (m : Nat → Option Container) :
    EditorState :=
  { s with containers := m }

/-- `handleToolChange(tool)`: store the new tool; set pointer-events and
cursor on every live canvas; set the inverse pointer-events on the
text-selection layer of every such page's container (the layer is modelled
as always present); and when the new tool is not a drawing tool, reset the
gesture refs. -/
def handleToolChange (s : EditorState) (t : Tool) : EditorState :=
  let s1 : EditorState := { s with activeTool := t }
  let canvases1 : Nat → Option Surface := fun p =>
    match s1.canvases p with
    | some c => some ({ c with pointerEvents := isDrawingTool t, cursor := cursorFor t })
    | Option.none => Option.none
  let containers1 : Nat → Option Container := fun p =>
    match s1.canvases p, s1.containers p with
    | some _, some cont => some ({ cont with textLayerPointerEvents := !isDrawingTool t })
    | _, _ => s1.containers p
  let s2 : EditorState := { s1 with canvases := canvases1, containers := containers1 }
  if isDrawingTool t then s2
  else { s2 with isDrawing := false, startCoords := Option.none, currentCoords := Option.none }

/-- A tool switch as the React component performs it: `handleToolChange`
runs, and because `setActiveTool` re-renders the component, the
canvas-lifecycle effect (which depends on `activeTool`) runs again. -/
def applyToolChange (s : EditorState) (t : Tool) : EditorState :=
  canvasLifecycle (handleToolChange s t)

/-- The DOM mouse event as `handleToolInteraction` consumes it: the event
type, the page index parsed from the target page's `aria-label` (`none`
when it cannot be determined), the event position relative to the page
canvas (`clientX - rect.left`, `clientY - rect.top`), and the value the
blocking `prompt("Enter text:")` would return on an addText release. -/
inductive MouseEventType
  | mousedown
  | mousemove
  | mouseup
deriving DecidableEq, Repr

structure MouseEvent where
  type : MouseEventType
  pageIndex : Option Nat
  canvasX : ℤ
  canvasY : ℤ
  promptResult : Option String
deriving DecidableEq, Repr

/-- The `mousedown` branch: begin a gesture, record the clamped point as
both start and current. -/
def doMousedown (s : EditorState) (bpt : Point) : EditorState :=
  { s with isDrawing := true, startCoords := some bpt, currentCoords := some bpt }

/-- The `mousemove` erase sub-step: if the page's annotation list ends in
an erase stroke, push the current point onto its path in place; otherwise
append a fresh erase stroke from the gesture start to the current point.
Returns the updated list and the updated fresh-id counter. -/
def eraseMoveUpdate (anns : List Annot) (fresh : Nat) (p : Nat)
    (st bpt : Point) : List Annot × Nat :=
  match anns.getLast? with
  | some lastAnn =>
      match lastAnn.data with
      | .eraseStroke path =>
          (anns.dropLast ++ [{ lastAnn with data := .eraseStroke (path ++ [bpt]) }], fresh)
      | _ => (anns ++ [⟨fresh, p, .eraseStroke [st, bpt]⟩], fresh + 1)
  | Option.none => (anns ++ [⟨fresh, p, .eraseStroke [st, bpt]⟩], fresh + 1)

/-- The `mousemove` branch (only active while `isDrawingRef` is set):
record the current point, redraw the page, then either paint the live blur
preview or commit/extend the erase stroke (and redraw again). -/
def doMousemove (s : EditorState) (p : Nat) (bpt : Point) : EditorState :=
  if s.isDrawing then
    let s1 := redrawPageAnnotations ({ s with currentCoords := some bpt }) p
    if s.activeTool = .blur then
      match s.startCoords with
      | some st => blurPreview s1 p st bpt
      | Option.none => s1
    else if s.activeTool = .erase then
      match s.startCoords with
      | some st =>
          let upd := eraseMoveUpdate (s1.annotations p) s1.nextId p st bpt
          redrawPageAnnotations
            ({ s1 with annotations := setAnns s1.annotations p upd.1, nextId := upd.2 }) p
      | Option.none => s1
    else s1
  else s

/-- The `mouseup` branch: end the gesture; when a start point exists,
commit a blur region when the drag exceeds the 5px threshold on either
axis, or a text label when the prompt returns non-empty text (erase
commits nothing here); clear the gesture refs and redraw. -/
def doMouseup (s : EditorState) (p : Nat) (bpt : Point)
    (promptResult : Option String) : EditorState :=
  let s1 : EditorState := { s with isDrawing := false }
  let newAnn : Option Annot :=
    match s.startCoords with
    | some st =>
        if s.activeTool = .blur then
          if abs (st.x - bpt.x) > 5 ∨ abs (st.y - bpt.y) > 5 then
            some ⟨s.nextId, p, .blurRegion st.x st.y bpt.x bpt.y⟩
          else Option.none
        else if s.activeTool = .addText then
          match promptResult with
          | some t => if t = "" then Option.none else some ⟨s.nextId, p, .textLabel bpt.x bpt.y t⟩
          | Option.none => Option.none
        else Option.none
    | Option.none => Option.none
  let s2 : EditorState :=
    match newAnn with
    | some a =>
        { s1 with annotations := setAnns s1.annotations p (s1.annotations p ++ [a])
                  nextId := s1.nextId + 1 }
    | Option.none => s1
  redrawPageAnnotations ({ s2 with startCoords := Option.none, currentCoords := Option.none }) p

/-- `handleToolInteraction(event)`: no-op when no tool is active, when the
page index cannot be determined, or when the page has no canvas/context;
otherwise clamp the event position into the canvas pixel box and dispatch
on the event type. -/
def handleToolInteraction (s : EditorState) (e : MouseEvent) : EditorState :=
  if s.activeTool = .none then s
  else
    match e.pageIndex with
    | Option.none => s
    | some p =>
        match s.canvases p, s.contexts p with
        | some canvas, true =>
            let bx := max 0 (min e.canvasX canvas.width)
            let my := max 0 (min e.canvasY canvas.height)
            match e.type with
            | .mousedown => doMousedown s ⟨bx, my⟩
            | .mousemove => doMousemove s p ⟨bx, my⟩
            | .mouseup => doMouseup s p ⟨bx, my⟩ e.promptResult
        | _, _ => s

/-- A sequence of pointer events folded through `handleToolInteraction`. -/
def applyEvents (s : EditorState) (es : List MouseEvent) : EditorState :=
  es.foldl handleToolInteraction s

/-- The `onMouseLeave` handler of the viewer container: while a drag is in
flight, reset the gesture refs and redraw every live page. -/
def handleMouseLeave (s : EditorState) : EditorState :=
  if s.isDrawing then
    let s1 : EditorState :=
      { s with isDrawing := false, startCoords := Option.none, currentCoords := Option.none }
    { s1 with canvases := fun p =>
        match s1.canvases p, s1.contexts p with
        | some c, true => some ({ c with content := renderAnnotations (s1.annotations p) })
        | c, _ => c }
  else s

/-- The editor-level operations the claims quantify over: an emitted
registry update (a bare ref mutation), a tool switch (which re-renders
and so re-runs the lifecycle effect), a text-selection change
(`setSelectedText` in `handleTextSelection` re-renders, and the effect
re-runs because the mapping ref differs from the one captured at its last
run), one pointer event, and the pointer leaving the viewer. -/
inductive Op
  | registryUpdate (m : Nat → Option Container)
  | toolChange (t : Tool)
  | selectionChange
  | interact (e : MouseEvent)
  | mouseLeave

/-- One editor step. -/
def stepOp (s : EditorState) : Op → EditorState
  | .registryUpdate m => applyRegistryUpdate s m
  | .toolChange t => applyToolChange s t
  | .selectionChange => canvasLifecycle s
  | .interact e => handleToolInteraction s e
  | .mouseLeave => handleMouseLeave s

/-- Whether an operation is a registry emission (the only operation that
replaces the latest emitted mapping). -/
def Op.isRegistryUpdate : Op → Bool
  | .registryUpdate _ => true
  | _ => false

/-- Whether an operation triggers a component render, and with it a run of
the canvas-lifecycle effect. -/
def Op.triggersRender : Op → Bool
  | .toolChange _ => true
  | .selectionChange => true
  | _ => false

/-- Run a sequence of operations from the initial state. -/
def runOps (ops : List Op) : EditorState :=
  ops.foldl stepOp initState

/-! ### Export flattener (`handleDownload`) -/

/-- An image drawn onto an output page by `page.drawImage(embeddedImage,
{x, y, width, height})`. -/
structure DrawnImage where
  imageRef : Nat
  x : ℤ
  y : ℤ
  w : ℤ
  h : ℤ
deriving DecidableEq, Repr

/-- One page of the decoded output document: its point-box size
(`page.getSize()`), its original content, and the images drawn onto it
since decoding.  A page is byte-untouched exactly when it equals its
decoded value, i.e. no image was drawn onto it. -/
structure PdfPage where
  width : ℤ
  height : ℤ
  content : List Nat
  drawnImages : List DrawnImage
deriving DecidableEq, Repr

/-- The downloadable file `saveAs` delivers. -/
structure SavedFile where
  name : String
  mime : String
  bytes : List Nat
deriving DecidableEq, Repr

/-- The fallible external steps of `handleDownload`, as oracles: each
models one awaited operation that either yields a value or throws (throwing
is `none`, caught by the surrounding `try`/`catch`). -/
structure ExportEnv where
  fetchResult : Option (List Nat)
  loadResult : List Nat → Option (List PdfPage)
  rasterizeCanvas : Nat → Option (List Nat)
  embedPng : List Nat → Option Nat
  saveResult : List PdfPage → Option (List Nat)

/-- The per-page body of the download loop: when the page has a canvas and
a non-empty annotation list, rasterize the canvas (`toDataURL` + fetch),
embed the PNG, and draw it stretched over the page's own box at the
origin; otherwise leave the page untouched. -/
def flattenPage (env : ExportEnv) (s : EditorState) (i : Nat)
    (page : PdfPage) : Option PdfPage :=
  match s.canvases i with
  | some _ =>
      if s.annotations i = [] then some page
      else
        match env.rasterizeCanvas i with
        | some png =>
            match env.embedPng png with
            | some img =>
                some ({ page with drawnImages :=
                    page.drawnImages ++ [⟨img, 0, 0, page.width, page.height⟩] })
            | Option.none => Option.none
        | Option.none => Option.none
  | Option.none => some page

/-- The download loop over all pages, starting at page index `i`;
any per-page failure aborts the whole loop. -/
def flattenPages (env : ExportEnv) (s : EditorState) :
    List PdfPage → Nat → Option (List PdfPage)
  | [], _ => some []
  | page :: rest, i =>
      match flattenPage env s i page with
      | some page1 =>
          match flattenPages env s rest (i + 1) with
          | some rest1 => some (page1 :: rest1)
          | Option.none => Option.none
      | Option.none => Option.none

/-- `handleDownload`: bail out silently without a URL; otherwise fetch the
original bytes, decode the document, flatten every annotated page, re-encode,
and only then deliver the result as `edited-document.pdf` of MIME type
`application/pdf`.  Any failure is caught and no file is produced. -/
def handleDownload (env : ExportEnv) (s : EditorState) (hasPdfUrl : Bool) :
    Option SavedFile :=
  if hasPdfUrl then
    env.fetchResult.bind fun orig =>
      (env.loadResult orig).bind fun pages =>
        (flattenPages env s pages 0).bind fun pages1 =>
          (env.saveResult pages1).map fun bytes =>
            { name := "edited-document.pdf"
              mime := "application/pdf"
              bytes := bytes }
  else Option.none

/-! ### Registry root polling (`pollForViewerAndAttachObserver`) -/

/-- Outcome of the poll: the structural observer was attached on a given
attempt, or polling was exhausted and the registry permanently gave up
(a logged, non-fatal failure — the viewer keeps rendering without
overlays). -/
inductive PollResult
  | attached (attempt : Nat)
  | gaveUp
deriving DecidableEq, Repr

/-- `pollForViewerAndAttachObserver(attempt, maxAttempts)`: query the DOM
for the renderer root (`found attempt`); on success attach the observer,
otherwise schedule the next attempt 200ms later while attempts remain, and
give up once `attempt < maxAttempts` fails. -/
def pollForViewerAndAttachObserver (found : Nat → Bool)
    (attempt maxAttempts : Nat) : PollResult :=
  if found attempt then .attached attempt
  else if attempt < maxAttempts then
    pollForViewerAndAttachObserver found (attempt + 1) maxAttempts
  else .gaveUp
termination_by maxAttempts - attempt
decreasing_by omega

/-- Number of retries the poll schedules (each via `setTimeout(…, 200)`),
mirroring the recursion of `pollForViewerAndAttachObserver`. -/
def pollRetryCount (found : Nat → Bool) (attempt maxAttempts : Nat) : Nat :=
  if found attempt then 0
  else if attempt < maxAttempts then
    pollRetryCount found (attempt + 1) maxAttempts + 1
  else 0
termination_by maxAttempts - attempt
decreasing_by omega

/-- Total milliseconds of delay the poll schedules: 200ms per retry. -/
def pollElapsedMs (found : Nat → Bool) (attempt maxAttempts : Nat) : Nat :=
  200 * pollRetryCount found attempt maxAttempts

/-! ### Coordinate bounds -/

/-- A point lies inside the pixel box `[0,w] × [0,h]`. -/
def inBox (w h : ℤ) (pt : Point) : Prop :=
  0 ≤ pt.x ∧ pt.x ≤ w ∧ 0 ≤ pt.y ∧ pt.y ≤ h

/-- Every coordinate stored in an annotation payload lies inside the box. -/
def annDataInBox (w h : ℤ) : AnnData → Prop
  | .blurRegion sx sy ex ey => inBox w h ⟨sx, sy⟩ ∧ inBox w h ⟨ex, ey⟩
  | .eraseStroke path => ∀ pt ∈ path, inBox w h pt
  | .textLabel x y _ => inBox w h ⟨x, y⟩

instance (w h : ℤ) (pt : Point) : Decidable (inBox w h pt) := by
  unfold inBox; infer_instance

instance (w h : ℤ) (d : AnnData) : Decidable (annDataInBox w h d) := by
  cases d <;> simp only [annDataInBox] <;> infer_instance

/-- The geometry/style part of a surface, unaffected by repainting. -/
def Surface.shape (c : Surface) : ℤ × ℤ × Bool × Cursor :=
  (c.width, c.height, c.pointerEvents, c.cursor)

/-- The state produced by a successful redraw of page `p` whose canvas was
`c`: only the canvas content is replaced, by the full replay of the page's
annotation list. -/
def redrawnState (s : EditorState) (p : Nat) (c : Surface) : EditorState :=
  let c1 : Surface := { c with content := renderAnnotations (s.annotations p) }
  { s with canvases := setCanvas s.canvases p c1 }

/-- The per-page bookkeeping invariant the editor maintains: a page has a
live canvas exactly when it is in the latest emitted registry mapping, a
registered 2D context exactly then as well, pages outside the mapping hold
no annotations, and every live canvas accepts pointer input exactly when
the active tool is a drawing tool. -/
def Inv (s : EditorState) : Prop :=
  ∀ p, ((s.canvases p).isSome = (s.containers p).isSome)
     ∧ (s.contexts p = (s.containers p).isSome)
     ∧ (s.containers p = Option.none → s.annotations p = [])
     ∧ (∀ c, s.canvases p = some c → c.pointerEvents = isDrawingTool s.activeTool)

/-- The weaker invariant that survives even registry emissions (which
leave surfaces untouched): canvases and registered contexts stay in sync
with each other, and every live surface's pointer acceptance matches the
active tool. -/
def PEInv (s : EditorState) : Prop :=
  ∀ p, ((s.canvases p).isSome = s.contexts p)
     ∧ (∀ c, s.canvases p = some c → c.pointerEvents = isDrawingTool s.activeTool)

/-! ### Helper lemmas: what each handler leaves untouched -/

@[simp]
theorem redraw_activeTool (s : EditorState) (p : Nat) :
    (redrawPageAnnotations s p).activeTool = s.activeTool := by
  unfold redrawPageAnnotations; split <;> rfl

@[simp]
theorem redraw_containers (s : EditorState) (p : Nat) :
    (redrawPageAnnotations s p).containers = s.containers := by
  unfold redrawPageAnnotations; split <;> rfl

@[simp]
theorem redraw_contexts (s : EditorState) (p : Nat) :
    (redrawPageAnnotations s p).contexts = s.contexts := by
  unfold redrawPageAnnotations; split <;> rfl

@[simp]
theorem redraw_annotations (s : EditorState) (p : Nat) :
    (redrawPageAnnotations s p).annotations = s.annotations := by
  unfold redrawPageAnnotations; split <;> rfl

@[simp]
theorem redraw_isDrawing (s : EditorState) (p : Nat) :
    (redrawPageAnnotations s p).isDrawing = s.isDrawing := by
  unfold redrawPageAnnotations; split <;> rfl

@[simp]
theorem redraw_startCoords (s : EditorState) (p : Nat) :
    (redrawPageAnnotations s p).startCoords = s.startCoords := by
  unfold redrawPageAnnotations; split <;> rfl

@[simp]
theorem redraw_currentCoords (s : EditorState) (p : Nat) :
    (redrawPageAnnotations s p).currentCoords = s.currentCoords := by
  unfold redrawPageAnnotations; split <;> rfl

@[simp]
theorem redraw_nextId (s : EditorState) (p : Nat) :
    (redrawPageAnnotations s p).nextId = s.nextId := by
  unfold redrawPageAnnotations; split <;> rfl

@[simp]
theorem redraw_canvases_shape (s : EditorState) (p q : Nat) :
    ((redrawPageAnnotations s p).canvases q).map Surface.shape
      = (s.canvases q).map Surface.shape := by
  unfold redrawPageAnnotations
  split
  case _ c hc hctx =>
    by_cases hq : q = p
    · subst hq; simp [setCanvas, hc, Surface.shape]
    · simp [setCanvas, hq]
  case _ => rfl

theorem redraw_canvases_isSome (s : EditorState) (p q : Nat) :
    ((redrawPageAnnotations s p).canvases q).isSome = (s.canvases q).isSome := by
  unfold redrawPageAnnotations
  split
  case _ c hc hctx =>
    by_cases hq : q = p
    · subst hq; simp [setCanvas, hc]
    · simp [setCanvas, hq]
  case _ => rfl

@[simp]
theorem blurPreview_activeTool (s : EditorState) (p : Nat) (st cur : Point) :
    (blurPreview s p st cur).activeTool = s.activeTool := by
  unfold blurPreview; split <;> rfl

@[simp]
theorem blurPreview_containers (s : EditorState) (p : Nat) (st cur : Point) :
    (blurPreview s p st cur).containers = s.containers := by
  unfold blurPreview; split <;> rfl

@[simp]
theorem blurPreview_contexts (s : EditorState) (p : Nat) (st cur : Point) :
    (blurPreview s p st cur).contexts = s.contexts := by
  unfold blurPreview; split <;> rfl

@[simp]
theorem blurPreview_annotations (s : EditorState) (p : Nat) (st cur : Point) :
    (blurPreview s p st cur).annotations = s.annotations := by
  unfold blurPreview; split <;> rfl

@[simp]
theorem blurPreview_isDrawing (s : EditorState) (p : Nat) (st cur : Point) :
    (blurPreview s p st cur).isDrawing = s.isDrawing := by
  unfold blurPreview; split <;> rfl

@[simp]
theorem blurPreview_startCoords (s : EditorState) (p : Nat) (st cur : Point) :
    (blurPreview s p st cur).startCoords = s.startCoords := by
  unfold blurPreview; split <;> rfl

@[simp]
theorem blurPreview_currentCoords (s : EditorState) (p : Nat) (st cur : Point) :
    (blurPreview s p st cur).currentCoords = s.currentCoords := by
  unfold blurPreview; split <;> rfl

@[simp]
theorem blurPreview_nextId (s : EditorState) (p : Nat) (st cur : Point) :
    (blurPreview s p st cur).nextId = s.nextId := by
  unfold blurPreview; split <;> rfl

@[simp]
theorem blurPreview_canvases_shape (s : EditorState) (p q : Nat) (st cur : Point) :
    ((blurPreview s p st cur).canvases q).map Surface.shape
      = (s.canvases q).map Surface.shape := by
  unfold blurPreview
  split
  case _ c hc =>
    by_cases hq : q = p
    · subst hq; simp [setCanvas, hc, Surface.shape]
    · simp [setCanvas, hq]
  case _ => rfl

/-- Two canvas slots with the same shape image are equi-defined, and a
surface in one corresponds to a same-shaped surface in the other. -/
theorem shape_eq_elim {a b : Option Surface}
    (h : a.map Surface.shape = b.map Surface.shape) {c : Surface}
    (hc : a = some c) :
    ∃ c', b = some c' ∧ c.width = c'.width ∧ c.height = c'.height ∧
      c.pointerEvents = c'.pointerEvents ∧ c.cursor = c'.cursor := by
  subst hc
  cases b with
  | none => simp at h
  | some c' =>
      refine ⟨c', rfl, ?_, ?_, ?_, ?_⟩ <;>
        · simp only [Option.map_some', Option.some.injEq, Surface.shape,
            Prod.mk.injEq] at h
          tauto

theorem isSome_of_shape_eq {a b : Option Surface}
    (h : a.map Surface.shape = b.map Surface.shape) :
    a.isSome = b.isSome := by
  cases a <;> cases b <;> simp_all

@[simp]
theorem doMousemove_containers (s : EditorState) (p : Nat) (bpt : Point) :
    (doMousemove s p bpt).containers = s.containers := by
  unfold doMousemove
  repeat' split
  all_goals simp

@[simp]
theorem doMousemove_contexts (s : EditorState) (p : Nat) (bpt : Point) :
    (doMousemove s p bpt).contexts = s.contexts := by
  unfold doMousemove
  repeat' split
  all_goals simp

@[simp]
theorem doMousemove_activeTool (s : EditorState) (p : Nat) (bpt : Point) :
    (doMousemove s p bpt).activeTool = s.activeTool := by
  unfold doMousemove
  repeat' split
  all_goals simp

@[simp]
theorem doMousemove_canvases_shape (s : EditorState) (p q : Nat) (bpt : Point) :
    ((doMousemove s p bpt).canvases q).map Surface.shape
      = (s.canvases q).map Surface.shape := by
  unfold doMousemove
  repeat' split
  all_goals simp

theorem doMousemove_annotations_ne (s : EditorState) (p q : Nat) (bpt : Point)
    (hq : q ≠ p) :
    (doMousemove s p bpt).annotations q = s.annotations q := by
  unfold doMousemove
  repeat' split
  all_goals simp [setAnns, hq]

@[simp]
theorem doMouseup_containers (s : EditorState) (p : Nat) (bpt : Point)
    (pr : Option String) :
    (doMouseup s p bpt pr).containers = s.containers := by
  unfold doMouseup
  repeat' split
  all_goals simp

@[simp]
theorem doMouseup_contexts (s : EditorState) (p : Nat) (bpt : Point)
    (pr : Option String) :
    (doMouseup s p bpt pr).contexts = s.contexts := by
  unfold doMouseup
  repeat' split
  all_goals simp

@[simp]
theorem doMouseup_activeTool (s : EditorState) (p : Nat) (bpt : Point)
    (pr : Option String) :
    (doMouseup s p bpt pr).activeTool = s.activeTool := by
  unfold doMouseup
  repeat' split
  all_goals simp

@[simp]
theorem doMouseup_canvases_shape (s : EditorState) (p q : Nat) (bpt : Point)
    (pr : Option String) :
    ((doMouseup s p bpt pr).canvases q).map Surface.shape
      = (s.canvases q).map Surface.shape := by
  unfold doMouseup
  repeat' split
  all_goals simp

theorem doMouseup_annotations_ne (s : EditorState) (p q : Nat) (bpt : Point)
    (pr : Option String) (hq : q ≠ p) :
    (doMouseup s p bpt pr).annotations q = s.annotations q := by
  unfold doMouseup
  repeat' split
  all_goals simp [setAnns, hq]

@[simp]
theorem interact_containers (s : EditorState) (e : MouseEvent) :
    (handleToolInteraction s e).containers = s.containers := by
  unfold handleToolInteraction
  repeat' split
  all_goals simp [doMousedown]

@[simp]
theorem interact_contexts (s : EditorState) (e : MouseEvent) :
    (handleToolInteraction s e).contexts = s.contexts := by
  unfold handleToolInteraction
  repeat' split
  all_goals simp [doMousedown]

@[simp]
theorem interact_activeTool (s : EditorState) (e : MouseEvent) :
    (handleToolInteraction s e).activeTool = s.activeTool := by
  unfold handleToolInteraction
  repeat' split
  all_goals simp [doMousedown]

@[simp]
theorem interact_canvases_shape (s : EditorState) (e : MouseEvent) (q : Nat) :
    ((handleToolInteraction s e).canvases q).map Surface.shape
      = (s.canvases q).map Surface.shape := by
  unfold handleToolInteraction
  repeat' split
  all_goals simp [doMousedown]

theorem interact_annotations_of_no_canvas (s : EditorState) (e : MouseEvent)
    (q : Nat) (hq : s.canvases q = Option.none) :
    (handleToolInteraction s e).annotations q = s.annotations q := by
  unfold handleToolInteraction
  repeat' split
  all_goals
    first
      | rfl
      | exact doMousemove_annotations_ne _ _ _ _ (by rintro rfl; simp_all)
      | exact doMouseup_annotations_ne _ _ _ _ _ (by rintro rfl; simp_all)

/-! ### The reachability invariant -/

theorem Inv_initState : Inv initState := by
  intro p
  simp [initState]

theorem Inv_canvasLifecycle (s : EditorState) : Inv (canvasLifecycle s) := by
  intro p
  unfold canvasLifecycle
  cases h : s.containers p with
  | none => simp [h]
  | some cont =>
      refine ⟨by simp [h], by simp [h], by simp [h], ?_⟩
      intro c hc
      simp only [h] at hc
      simp only [Option.some.injEq] at hc
      subst hc
      rfl

theorem Inv_doMousedown (s : EditorState) (bpt : Point) (h : Inv s) :
    Inv (doMousedown s bpt) := by
  intro p
  exact h p

theorem Inv_doMousemove (s : EditorState) (p : Nat) (bpt : Point)
    (canvas : Surface) (hc : s.canvases p = some canvas) (h : Inv s) :
    Inv (doMousemove s p bpt) := by
  intro q
  obtain ⟨h1, h2, h3, h4⟩ := h q
  refine ⟨?_, ?_, ?_, ?_⟩
  · rw [isSome_of_shape_eq (doMousemove_canvases_shape s p q bpt), h1,
      doMousemove_containers]
  · rw [doMousemove_contexts, doMousemove_containers]; exact h2
  · rw [doMousemove_containers]
    intro hnone
    by_cases hq : q = p
    · subst hq
      exfalso
      have := h1
      rw [hnone, hc] at this
      simp at this
    · rw [doMousemove_annotations_ne s p q bpt hq]
      exact h3 hnone
  · intro c hcq
    obtain ⟨c', hc', hw, hh, hpe, _⟩ :=
      shape_eq_elim (doMousemove_canvases_shape s p q bpt) hcq
    rw [doMousemove_activeTool, hpe]
    exact h4 c' hc'

theorem Inv_doMouseup (s : EditorState) (p : Nat) (bpt : Point)
    (pr : Option String) (canvas : Surface) (hc : s.canvases p = some canvas)
    (h : Inv s) : Inv (doMouseup s p bpt pr) := by
  intro q
  obtain ⟨h1, h2, h3, h4⟩ := h q
  refine ⟨?_, ?_, ?_, ?_⟩
  · rw [isSome_of_shape_eq (doMouseup_canvases_shape s p q bpt pr), h1,
      doMouseup_containers]
  · rw [doMouseup_contexts, doMouseup_containers]; exact h2
  · rw [doMouseup_containers]
    intro hnone
    by_cases hq : q = p
    · subst hq
      exfalso
      have := h1
      rw [hnone, hc] at this
      simp at this
    · rw [doMouseup_annotations_ne s p q bpt pr hq]
      exact h3 hnone
  · intro c hcq
    obtain ⟨c', hc', hw, hh, hpe, _⟩ :=
      shape_eq_elim (doMouseup_canvases_shape s p q bpt pr) hcq
    rw [doMouseup_activeTool, hpe]
    exact h4 c' hc'

theorem Inv_handleToolInteraction (s : EditorState) (e : MouseEvent)
    (h : Inv s) : Inv (handleToolInteraction s e) := by
  unfold handleToolInteraction
  repeat' split
  all_goals try exact h
  all_goals
    first
      | exact Inv_doMousedown _ _ h
      | exact Inv_doMousemove _ _ _ _ (by assumption) h
      | exact Inv_doMouseup _ _ _ _ _ (by assumption) h

theorem Inv_handleMouseLeave (s : EditorState) (h : Inv s) :
    Inv (handleMouseLeave s) := by
  unfold handleMouseLeave
  split
  · intro q
    obtain ⟨h1, h2, h3, h4⟩ := h q
    refine ⟨?_, h2, h3, ?_⟩
    · simp only []
      cases hcq : s.canvases q with
      | none => simp [hcq, ← h1]
      | some c =>
          cases hx : s.contexts q <;> simp [hcq, hx, ← h1]
    · intro c hcq
      simp only [] at hcq
      cases hc0 : s.canvases q with
      | none => rw [hc0] at hcq; simp at hcq
      | some c0 =>
          rw [hc0] at hcq
          cases hx : s.contexts q <;> rw [hx] at hcq <;>
            simp only [Option.some.injEq] at hcq <;> subst hcq
          · exact h4 c0 hc0
          · exact h4 c0 hc0
  · exact h

/-- Every operation except a registry emission preserves the sync
invariant: render-triggering operations re-establish it outright through
the lifecycle effect, and pointer events respect it. -/
theorem Inv_stepOp_no_registry (s : EditorState) (op : Op)
    (hop : op.isRegistryUpdate = false) (h : Inv s) :
    Inv (stepOp s op) := by
  cases op with
  | registryUpdate m => simp [Op.isRegistryUpdate] at hop
  | toolChange t => exact Inv_canvasLifecycle _
  | selectionChange => exact Inv_canvasLifecycle _
  | interact e => exact Inv_handleToolInteraction s e h
  | mouseLeave => exact Inv_handleMouseLeave s h

theorem Inv_foldl_no_registry (ops : List Op)
    (hops : ∀ op ∈ ops, op.isRegistryUpdate = false) :
    ∀ s : EditorState, Inv s → Inv (ops.foldl stepOp s) := by
  induction ops with
  | nil => intro s h; exact h
  | cons op rest ih =>
      intro s h
      exact ih (fun o ho => hops o (List.mem_cons_of_mem op ho)) _
        (Inv_stepOp_no_registry s op (hops op (List.mem_cons_self op rest)) h)

/-! ### The always-invariant pointer-acceptance facts -/

@[simp]
theorem mouseLeave_contexts (s : EditorState) :
    (handleMouseLeave s).contexts = s.contexts := by
  unfold handleMouseLeave
  split <;> rfl

@[simp]
theorem mouseLeave_activeTool (s : EditorState) :
    (handleMouseLeave s).activeTool = s.activeTool := by
  unfold handleMouseLeave
  split <;> rfl

@[simp]
theorem mouseLeave_canvases_shape (s : EditorState) (q : Nat) :
    ((handleMouseLeave s).canvases q).map Surface.shape
      = (s.canvases q).map Surface.shape := by
  unfold handleMouseLeave
  split
  · simp only []
    cases hcq : s.canvases q with
    | none => simp [hcq]
    | some c => cases hx : s.contexts q <;> simp [hcq, hx, Surface.shape]
  · rfl

theorem PEInv_initState : PEInv initState := by
  intro p
  simp [initState]

theorem PEInv_canvasLifecycle (s : EditorState) : PEInv (canvasLifecycle s) := by
  intro p
  unfold canvasLifecycle
  cases h : s.containers p with
  | none => simp [h]
  | some cont =>
      refine ⟨by simp [h], ?_⟩
      intro c hc
      simp only [h, Option.some.injEq] at hc
      rw [← hc]
      rfl

theorem PEInv_handleToolInteraction (s : EditorState) (e : MouseEvent)
    (h : PEInv s) : PEInv (handleToolInteraction s e) := by
  intro p
  obtain ⟨h1, h2⟩ := h p
  constructor
  · rw [isSome_of_shape_eq (interact_canvases_shape s e p), interact_contexts]
    exact h1
  · intro c hc
    obtain ⟨c0, hc0, _, _, hpe, _⟩ :=
      shape_eq_elim (interact_canvases_shape s e p) hc
    rw [interact_activeTool, hpe]
    exact h2 c0 hc0

theorem PEInv_handleMouseLeave (s : EditorState) (h : PEInv s) :
    PEInv (handleMouseLeave s) := by
  intro p
  obtain ⟨h1, h2⟩ := h p
  constructor
  · rw [isSome_of_shape_eq (mouseLeave_canvases_shape s p), mouseLeave_contexts]
    exact h1
  · intro c hc
    obtain ⟨c0, hc0, _, _, hpe, _⟩ :=
      shape_eq_elim (mouseLeave_canvases_shape s p) hc
    rw [mouseLeave_activeTool, hpe]
    exact h2 c0 hc0

theorem PEInv_stepOp (s : EditorState) (op : Op) (h : PEInv s) :
    PEInv (stepOp s op) := by
  cases op with
  | registryUpdate m => exact fun p => h p
  | toolChange t => exact PEInv_canvasLifecycle _
  | selectionChange => exact PEInv_canvasLifecycle _
  | interact e => exact PEInv_handleToolInteraction s e h
  | mouseLeave => exact PEInv_handleMouseLeave s h

theorem PEInv_runOps (ops : List Op) : PEInv (runOps ops) := by
  have hfold : ∀ (l : List Op) (s : EditorState), PEInv s → PEInv (l.foldl stepOp s) := by
    intro l
    induction l with
    | nil => intro s h; exact h
    | cons op rest ih => intro s h; exact ih _ (PEInv_stepOp s op h)
  exact hfold ops initState PEInv_initState

/-! ### Characterisations of the compositor -/

theorem setCanvas_idem (f : Nat → Option Surface) (p : Nat) (c : Surface) :
    setCanvas (setCanvas f p c) p c = setCanvas f p c := by
  funext q
  unfold setCanvas
  by_cases hq : q = p <;> simp [hq]

theorem redraw_of_eq (s : EditorState) (p : Nat) (c : Surface)
    (hc : s.canvases p = some c) (hx : s.contexts p = true) :
    redrawPageAnnotations s p = redrawnState s p c := by
  unfold redrawPageAnnotations redrawnState
  rw [hc, hx]

theorem redraw_of_no_canvas (s : EditorState) (p : Nat)
    (hc : s.canvases p = Option.none) : redrawPageAnnotations s p = s := by
  unfold redrawPageAnnotations
  rw [hc]

theorem redraw_of_no_context (s : EditorState) (p : Nat)
    (hx : s.contexts p = false) : redrawPageAnnotations s p = s := by
  unfold redrawPageAnnotations
  rw [hx]
  split <;> simp_all

/-! ### Claim theorems -/

/-- C1 counterexample: the live-surface set does NOT always equal the
latest emitted mapping's index set.  A registry emission only mutates the
`pageContainerRefs` ref, which never re-renders the component, so the
lifecycle effect does not run: (i) right after a page-0 mapping is
emitted, page 0 has neither a canvas nor a context; (ii) after page 0
(carrying an erase stroke) vanishes from an emitted mapping, its surface
and its annotation list persist until the next state-driven render. -/
theorem surfaces_lag_registry_cx :
    ((((runOps [Op.registryUpdate (fun q => if q = 0 then some ⟨100, 100, true⟩ else Option.none)]).containers 0).isSome = true)
      ∧ (((runOps [Op.registryUpdate (fun q => if q = 0 then some ⟨100, 100, true⟩ else Option.none)]).canvases 0).isSome = false)
      ∧ ((runOps [Op.registryUpdate (fun q => if q = 0 then some ⟨100, 100, true⟩ else Option.none)]).contexts 0 = false))
    ∧ (((runOps [Op.registryUpdate (fun q => if q = 0 then some ⟨100, 100, true⟩ else Option.none),
          Op.toolChange .erase,
          Op.interact ⟨.mousedown, some 0, 0, 0, Option.none⟩,
          Op.interact ⟨.mousemove, some 0, 1, 1, Option.none⟩,
          Op.interact ⟨.mouseup, some 0, 1, 1, Option.none⟩,
          Op.registryUpdate (fun _ => Option.none)]).containers 0 = Option.none)
      ∧ (((runOps [Op.registryUpdate (fun q => if q = 0 then some ⟨100, 100, true⟩ else Option.none),
          Op.toolChange .erase,
          Op.interact ⟨.mousedown, some 0, 0, 0, Option.none⟩,
          Op.interact ⟨.mousemove, some 0, 1, 1, Option.none⟩,
          Op.interact ⟨.mouseup, some 0, 1, 1, Option.none⟩,
          Op.registryUpdate (fun _ => Option.none)]).canvases 0).isSome = true)
      ∧ (¬ (runOps [Op.registryUpdate (fun q => if q = 0 then some ⟨100, 100, true⟩ else Option.none),
          Op.toolChange .erase,
          Op.interact ⟨.mousedown, some 0, 0, 0, Option.none⟩,
          Op.interact ⟨.mousemove, some 0, 1, 1, Option.none⟩,
          Op.interact ⟨.mouseup, some 0, 1, 1, Option.none⟩,
          Op.registryUpdate (fun _ => Option.none)]).annotations 0 = [])) := by
  refine ⟨⟨?_, ?_, ?_⟩, ?_, ?_, ?_⟩ <;> decide

/-- C1 (amended): the live-surface set tracks the mapping only up to the
next render.  After any operation sequence in which the last registry
emission is followed by at least one render-triggering operation (a tool
change or a text-selection change, which re-runs the lifecycle effect),
a page has a live drawing surface — an overlay canvas with a registered
2D context — exactly when its index is in the most recently emitted
mapping, and every page absent from that mapping has had its annotation
list discarded; this sync persists under further pointer events and tool
or selection changes until the next emission. -/
theorem surfaces_track_registry_after_render (ops : List Op) (r : Op)
    (hr : r.triggersRender = true) (ops2 : List Op)
    (h2 : ∀ op ∈ ops2, op.isRegistryUpdate = false) (p : Nat) :
    (((runOps (ops ++ r :: ops2)).canvases p).isSome
        = ((runOps (ops ++ r :: ops2)).containers p).isSome)
    ∧ ((runOps (ops ++ r :: ops2)).contexts p
        = ((runOps (ops ++ r :: ops2)).containers p).isSome)
    ∧ ((runOps (ops ++ r :: ops2)).containers p = Option.none →
        (runOps (ops ++ r :: ops2)).annotations p = []) := by
  have hbase : Inv (stepOp (runOps ops) r) := by
    cases r with
    | registryUpdate m => simp [Op.triggersRender] at hr
    | toolChange t => exact Inv_canvasLifecycle _
    | selectionChange => exact Inv_canvasLifecycle _
    | interact e => simp [Op.triggersRender] at hr
    | mouseLeave => simp [Op.triggersRender] at hr
  have hrun : runOps (ops ++ r :: ops2)
      = ops2.foldl stepOp (stepOp (runOps ops) r) := by
    unfold runOps
    rw [List.foldl_append, List.foldl_cons]
  rw [hrun]
  obtain ⟨a, b, c, _⟩ := Inv_foldl_no_registry ops2 h2 (stepOp (runOps ops) r) hbase p
  exact ⟨a, b, c⟩

/-- Witness for C1 (amended): page 0 is emitted, then a tool change
renders; afterwards the surface set matches the mapping and unmapped
pages hold nothing. -/
theorem surfaces_track_registry_after_render_witness :
    ((Op.toolChange .blur).triggersRender = true)
    ∧ (∀ op ∈ ([] : List Op), op.isRegistryUpdate = false)
    ∧ ((runOps ([Op.registryUpdate (fun q => if q = 0 then some ⟨100, 100, true⟩ else Option.none)]
          ++ Op.toolChange .blur :: [])).containers 5 = Option.none)
    ∧ ((runOps ([Op.registryUpdate (fun q => if q = 0 then some ⟨100, 100, true⟩ else Option.none)]
          ++ Op.toolChange .blur :: [])).annotations 5 = [])
    ∧ (((runOps ([Op.registryUpdate (fun q => if q = 0 then some ⟨100, 100, true⟩ else Option.none)]
          ++ Op.toolChange .blur :: [])).canvases 0).isSome
        = ((runOps ([Op.registryUpdate (fun q => if q = 0 then some ⟨100, 100, true⟩ else Option.none)]
          ++ Op.toolChange .blur :: [])).containers 0).isSome) :=
  ⟨rfl, by simp, by decide,
   (surfaces_track_registry_after_render
      [Op.registryUpdate (fun q => if q = 0 then some ⟨100, 100, true⟩ else Option.none)]
      (Op.toolChange .blur) rfl [] (by simp) 5).2.2 (by decide),
   (surfaces_track_registry_after_render
      [Op.registryUpdate (fun q => if q = 0 then some ⟨100, 100, true⟩ else Option.none)]
      (Op.toolChange .blur) rfl [] (by simp) 0).1⟩

/-- C8: the compositor is a full replace-draw: `redrawPageAnnotations`
never mutates the annotation store, and running it twice in a row on the
same page with no store mutation in between yields exactly the same state
— in particular identical surface content — as running it once. -/
theorem redrawPageAnnotations_idempotent (s : EditorState) (p : Nat) :
    redrawPageAnnotations (redrawPageAnnotations s p) p = redrawPageAnnotations s p
    ∧ (redrawPageAnnotations s p).annotations = s.annotations := by
  refine ⟨?_, redraw_annotations s p⟩
  cases hx : s.contexts p with
  | false => rw [redraw_of_no_context s p hx, redraw_of_no_context s p hx]
  | true =>
      cases hc : s.canvases p with
      | none => rw [redraw_of_no_canvas s p hc, redraw_of_no_canvas s p hc]
      | some c =>
          rw [redraw_of_eq s p c hc hx]
          have hc2 : (redrawnState s p c).canvases p
              = some ({ c with content := renderAnnotations (s.annotations p) }) := by
            simp [redrawnState, setCanvas]
          have hx2 : (redrawnState s p c).contexts p = true := hx
          rw [redraw_of_eq (redrawnState s p c) p _ hc2 hx2]
          unfold redrawnState
          simp only []
          rw [setCanvas_idem]

/-! ### Polling lemmas -/

theorem pollRetryCount_le (found : Nat → Bool) :
    ∀ n attempt maxAttempts, maxAttempts - attempt ≤ n →
      pollRetryCount found attempt maxAttempts ≤ maxAttempts - attempt := by
  intro n
  induction n with
  | zero =>
      intro a m h
      unfold pollRetryCount
      by_cases hf : found a = true
      · simp [hf]
      · have hm : ¬ a < m := by omega
        simp [hf, hm]
  | succ n ih =>
      intro a m h
      unfold pollRetryCount
      by_cases hf : found a = true
      · simp [hf]
      · by_cases ha : a < m
        · rw [if_neg hf, if_pos ha]
          have := ih (a + 1) m (by omega)
          omega
        · simp [hf, ha]

theorem poll_gaveUp_aux (found : Nat → Bool) :
    ∀ n a m, m - a ≤ n → a ≤ m →
      (∀ i, a ≤ i → i ≤ m → found i = false) →
      pollForViewerAndAttachObserver found a m = .gaveUp := by
  intro n
  induction n with
  | zero =>
      intro a m h ham hall
      have hae : a = m := by omega
      unfold pollForViewerAndAttachObserver
      have hm : ¬ a < m := by omega
      simp [hall a le_rfl ham, hm]
  | succ n ih =>
      intro a m h ham hall
      unfold pollForViewerAndAttachObserver
      by_cases ha : a < m
      · have hrec := ih (a + 1) m (by omega) (by omega)
          (fun i hi1 hi2 => hall i (by omega) hi2)
        simp [hall a le_rfl ham, ha, hrec]
      · have hae : a = m := by omega
        simp [hall a le_rfl ham, ha]

theorem poll_attached_aux (found : Nat → Bool) :
    ∀ n a m k, k - a ≤ n → a ≤ k → k ≤ m → found k = true →
      (∀ j, a ≤ j → j < k → found j = false) →
      pollForViewerAndAttachObserver found a m = .attached k ∧
      pollRetryCount found a m = k - a := by
  intro n
  induction n with
  | zero =>
      intro a m k h hak hkm hk hj
      have hae : a = k := by omega
      subst hae
      unfold pollForViewerAndAttachObserver pollRetryCount
      simp [hk]
  | succ n ih =>
      intro a m k h hak hkm hk hj
      by_cases hae : a = k
      · subst hae
        unfold pollForViewerAndAttachObserver pollRetryCount
        simp [hk]
      · have hlt : a < k := by omega
        have hf : found a = false := hj a le_rfl hlt
        have ham : a < m := by omega
        have hrec := ih (a + 1) m k (by omega) (by omega) hkm hk
          (fun j hj1 hj2 => hj j (by omega) hj2)
        constructor
        · unfold pollForViewerAndAttachObserver
          simp [hf, ham, hrec.1]
        · unfold pollRetryCount
          rw [if_neg (by simp [hf]), if_pos ham, hrec.2]
          omega

/-- C9: the registry's root polling is bounded: starting from attempt 0
with `maxAttempts = 50`, it schedules at most 50 retries, 200ms apart
(at most 10 seconds in total); if the renderer root is never found within
the attempt budget the poll ends in the permanent non-fatal `gaveUp`
outcome; and if the root first appears on attempt `k ≤ 50`, polling stops
right there with the observer attached, after exactly `k` retries. -/
theorem poll_bounded (found : Nat → Bool) :
    (pollRetryCount found 0 50 ≤ 50 ∧ pollElapsedMs found 0 50 ≤ 10000)
    ∧ ((∀ i, i ≤ 50 → found i = false) →
        pollForViewerAndAttachObserver found 0 50 = .gaveUp)
    ∧ (∀ k, k ≤ 50 → found k = true → (∀ j, j < k → found j = false) →
        pollForViewerAndAttachObserver found 0 50 = .attached k ∧
        pollRetryCount found 0 50 = k) := by
  refine ⟨⟨?_, ?_⟩, ?_, ?_⟩
  · simpa using pollRetryCount_le found 50 0 50 (by omega)
  · unfold pollElapsedMs
    have := pollRetryCount_le found 50 0 50 (by omega)
    omega
  · intro hall
    exact poll_gaveUp_aux found 50 0 50 (by omega) (by omega)
      (fun i _ hi => hall i hi)
  · intro k hk hfk hj
    have := poll_attached_aux found 50 0 50 k (by omega) (by omega) hk hfk
      (fun j _ hjk => hj j hjk)
    simpa using this

/-- Witness for C9: with a root that never appears the poll gives up. -/
theorem poll_bounded_witness :
    (∀ i, i ≤ 50 → (fun _ => false) i = false)
    ∧ pollForViewerAndAttachObserver (fun _ => false) 0 50 = .gaveUp :=
  ⟨fun _ _ => rfl, (poll_bounded (fun _ => false)).2.1 (fun _ _ => rfl)⟩

/-! ### Export lemmas -/

theorem flattenPages_getElem (env : ExportEnv) (s : EditorState) :
    ∀ (pages : List PdfPage) (k : Nat) (out : List PdfPage),
      flattenPages env s pages k = some out →
      ∀ j, s.annotations (k + j) = [] → out[j]? = pages[j]? := by
  intro pages
  induction pages with
  | nil =>
      intro k out h j hj
      unfold flattenPages at h
      simp only [Option.some.injEq] at h
      subst h
      rfl
  | cons page rest ih =>
      intro k out h j hj
      unfold flattenPages at h
      cases hfp : flattenPage env s k page with
      | none => rw [hfp] at h; exact absurd h (by simp)
      | some page1 =>
          rw [hfp] at h
          cases hfr : flattenPages env s rest (k + 1) with
          | none => rw [hfr] at h; exact absurd h (by simp)
          | some rest1 =>
              rw [hfr] at h
              simp only [Option.some.injEq] at h
              subst h
              cases j with
              | zero =>
                  have hk : s.annotations k = [] := by simpa using hj
                  have : page1 = page := by
                    unfold flattenPage at hfp
                    cases hcv : s.canvases k with
                    | none => rw [hcv] at hfp; simpa using hfp.symm
                    | some cv => rw [hcv] at hfp; simp [hk] at hfp; exact hfp.symm
                  subst this
                  simp
              | succ j =>
                  have hj1 : s.annotations (k + 1 + j) = [] := by
                    have : k + 1 + j = k + (j + 1) := by omega
                    rw [this]; exact hj
                  simpa using ih (k + 1) rest1 hfr j hj1

theorem flattenPages_id_of_no_anns (env : ExportEnv) (s : EditorState)
    (hall : ∀ i, s.annotations i = []) :
    ∀ (pages : List PdfPage) (k : Nat), flattenPages env s pages k = some pages := by
  intro pages
  induction pages with
  | nil => intro k; rfl
  | cons page rest ih =>
      intro k
      unfold flattenPages flattenPage
      cases hcv : s.canvases k <;> simp [hall k, ih (k + 1)]

theorem flattenPages_none_of_fail (env : ExportEnv) (s : EditorState) :
    ∀ (pages : List PdfPage) (k j : Nat) (hj : j < pages.length),
      flattenPage env s (k + j) (pages.get ⟨j, hj⟩) = Option.none →
      flattenPages env s pages k = Option.none := by
  intro pages
  induction pages with
  | nil => intro k j hj; exact absurd hj (by simp)
  | cons page rest ih =>
      intro k j hj hfail
      cases j with
      | zero =>
          unfold flattenPages
          simp only [List.get] at hfail
          rw [Nat.add_zero] at hfail
          rw [hfail]
      | succ j =>
          unfold flattenPages
          cases hfp : flattenPage env s k page with
          | none => rfl
          | some page1 =>
              have hj1 : j < rest.length := by simpa using hj
              have heq : k + (j + 1) = (k + 1) + j := by omega
              rw [heq] at hfail
              have := ih (k + 1) j hj1 (by simpa using hfail)
              rw [this]

/-- C6: an export never touches a page that has no annotations: whenever
the flatten loop succeeds inside `handleDownload`, every page whose
annotation list is empty appears in the output document exactly as it was
decoded, and if no page at all has annotations the whole decoded page list
passes through unchanged (so all pages of the output are identical to the
source pages, the saved bytes being their re-encoding). -/
theorem export_leaves_unannotated_pages_untouched (env : ExportEnv)
    (s : EditorState) (orig : List Nat) (pages : List PdfPage) (f : SavedFile)
    (hf : env.fetchResult = some orig)
    (hl : env.loadResult orig = some pages)
    (hd : handleDownload env s true = some f) :
    ∃ out, flattenPages env s pages 0 = some out
      ∧ env.saveResult out = some f.bytes
      ∧ (∀ j, s.annotations j = [] → out[j]? = pages[j]?)
      ∧ ((∀ i, s.annotations i = []) → out = pages) := by
  unfold handleDownload at hd
  rw [if_pos rfl, hf] at hd
  simp only [Option.some_bind, hl] at hd
  cases hfl : flattenPages env s pages 0 with
  | none => rw [hfl] at hd; exact absurd hd (by simp)
  | some out =>
      rw [hfl] at hd
      simp only [Option.some_bind] at hd
      cases hs : env.saveResult out with
      | none => rw [hs] at hd; exact absurd hd (by simp)
      | some bytes =>
          rw [hs] at hd
          simp only [Option.map_some', Option.some.injEq] at hd
          refine ⟨out, rfl, ?_, ?_, ?_⟩
          · rw [← hd]; exact hs
          · intro j hj
            have := flattenPages_getElem env s pages 0 out hfl j
            simpa using this (by simpa using hj)
          · intro hall
            have := flattenPages_id_of_no_anns env s hall pages 0
            rw [this] at hfl
            simpa using hfl.symm

/-- Witness for C6: a one-page document exported with no annotations at
all; the output page list is the decoded one, untouched. -/
theorem export_leaves_unannotated_pages_untouched_witness :
    ((⟨some [9], fun _ => some [⟨100, 100, [1, 2], []⟩], fun _ => Option.none,
        fun _ => Option.none, fun _ => some [7]⟩ : ExportEnv).fetchResult = some [9])
    ∧ (handleDownload
        (⟨some [9], fun _ => some [⟨100, 100, [1, 2], []⟩], fun _ => Option.none,
          fun _ => Option.none, fun _ => some [7]⟩ : ExportEnv) initState true
        = some ⟨"edited-document.pdf", "application/pdf", [7]⟩)
    ∧ ∃ out,
        flattenPages
          (⟨some [9], fun _ => some [⟨100, 100, [1, 2], []⟩], fun _ => Option.none,
            fun _ => Option.none, fun _ => some [7]⟩ : ExportEnv) initState
          [⟨100, 100, [1, 2], []⟩] 0 = some out
        ∧ (⟨some [9], fun _ => some [⟨100, 100, [1, 2], []⟩], fun _ => Option.none,
            fun _ => Option.none, fun _ => some [7]⟩ : ExportEnv).saveResult out
            = some (⟨"edited-document.pdf", "application/pdf", [7]⟩ : SavedFile).bytes
        ∧ (∀ j, initState.annotations j = [] →
            out[j]? = ([⟨100, 100, [1, 2], []⟩] : List PdfPage)[j]?)
        ∧ ((∀ i, initState.annotations i = []) →
            out = [⟨100, 100, [1, 2], []⟩]) :=
  ⟨rfl, by decide,
   export_leaves_unannotated_pages_untouched _ initState [9] [⟨100, 100, [1, 2], []⟩]
     ⟨"edited-document.pdf", "application/pdf", [7]⟩ rfl rfl (by decide)⟩

/-- C7: export is all-or-nothing: a delivered file is always named
`edited-document.pdf` with MIME type `application/pdf`, and a failure of
any step — fetching the original bytes, decoding the document,
rasterizing/embedding any processed page, or re-encoding — makes
`handleDownload` produce no file at all. -/
theorem export_all_or_nothing (env : ExportEnv) (s : EditorState) (b : Bool) :
    (∀ f, handleDownload env s b = some f →
        f.name = "edited-document.pdf" ∧ f.mime = "application/pdf")
    ∧ (env.fetchResult = Option.none → handleDownload env s b = Option.none)
    ∧ (∀ orig, env.fetchResult = some orig → env.loadResult orig = Option.none →
        handleDownload env s b = Option.none)
    ∧ (∀ orig pages, env.fetchResult = some orig → env.loadResult orig = some pages →
        (∃ j, ∃ hj : j < pages.length,
            flattenPage env s j (pages.get ⟨j, hj⟩) = Option.none) →
        handleDownload env s b = Option.none)
    ∧ (∀ orig pages out, env.fetchResult = some orig → env.loadResult orig = some pages →
        flattenPages env s pages 0 = some out → env.saveResult out = Option.none →
        handleDownload env s b = Option.none) := by
  cases b with
  | false =>
      refine ⟨?_, ?_, ?_, ?_, ?_⟩ <;> intros <;> simp_all [handleDownload]
  | true =>
      refine ⟨?_, ?_, ?_, ?_, ?_⟩
      · intro f hd
        unfold handleDownload at hd
        rw [if_pos rfl] at hd
        cases hf : env.fetchResult with
        | none => rw [hf] at hd; exact absurd hd (by simp)
        | some orig =>
            rw [hf] at hd
            simp only [Option.some_bind] at hd
            cases hl : env.loadResult orig with
            | none => rw [hl] at hd; exact absurd hd (by simp)
            | some pages =>
                rw [hl] at hd
                simp only [Option.some_bind] at hd
                cases hfl : flattenPages env s pages 0 with
                | none => rw [hfl] at hd; exact absurd hd (by simp)
                | some out =>
                    rw [hfl] at hd
                    simp only [Option.some_bind] at hd
                    cases hs : env.saveResult out with
                    | none => rw [hs] at hd; exact absurd hd (by simp)
                    | some bytes =>
                        rw [hs] at hd
                        simp only [Option.map_some', Option.some.injEq] at hd
                        rw [← hd]
                        exact ⟨rfl, rfl⟩
      · intro hf
        simp [handleDownload, hf]
      · intro orig hf hl
        simp [handleDownload, hf, hl]
      · intro orig pages hf hl hfail
        obtain ⟨j, hj, hfp⟩ := hfail
        have := flattenPages_none_of_fail env s pages 0 j hj (by simpa using hfp)
        simp [handleDownload, hf, hl, this]
      · intro orig pages out hf hl hfl hs
        simp [handleDownload, hf, hl, hfl, hs]

/-! ### Gesture characterisation lemmas -/

theorem clamp_left (c : Surface) (x : ℤ) (h1 : 0 ≤ x) (h2 : x ≤ c.width) :
    max 0 (min x c.width) = x := by
  rw [min_eq_left h2, max_eq_right h1]

theorem clamp_top (c : Surface) (y : ℤ) (h1 : 0 ≤ y) (h2 : y ≤ c.height) :
    max 0 (min y c.height) = y := by
  rw [min_eq_left h2, max_eq_right h1]

/-- A `mousedown` on a live page with in-bounds coordinates just arms the
gesture: clamping is the identity and only the three gesture refs move. -/
theorem interact_mousedown_eq (s : EditorState) (p : Nat) (c : Surface)
    (x y : ℤ) (htool : ¬ s.activeTool = .none) (hc : s.canvases p = some c)
    (hx : s.contexts p = true)
    (hbx : 0 ≤ x) (hbx2 : x ≤ c.width) (hby : 0 ≤ y) (hby2 : y ≤ c.height) :
    handleToolInteraction s ⟨.mousedown, some p, x, y, Option.none⟩ =
      { s with isDrawing := true, startCoords := some ⟨x, y⟩,
               currentCoords := some ⟨x, y⟩ } := by
  unfold handleToolInteraction
  rw [if_neg htool]
  simp only [hc, hx, clamp_left c x hbx hbx2, clamp_top c y hby hby2]
  rfl

/-- A `mousemove` with the erase tool during a drag updates the page's
annotation list through `eraseMoveUpdate` and leaves the gesture armed. -/
theorem interact_erase_move (s : EditorState) (p : Nat) (c : Surface)
    (x y : ℤ) (st : Point)
    (htool : s.activeTool = .erase) (hc : s.canvases p = some c)
    (hx : s.contexts p = true) (hdraw : s.isDrawing = true)
    (hst : s.startCoords = some st)
    (hbx : 0 ≤ x) (hbx2 : x ≤ c.width) (hby : 0 ≤ y) (hby2 : y ≤ c.height) :
    ((handleToolInteraction s ⟨.mousemove, some p, x, y, Option.none⟩).annotations p
        = (eraseMoveUpdate (s.annotations p) s.nextId p st ⟨x, y⟩).1)
    ∧ ((handleToolInteraction s ⟨.mousemove, some p, x, y, Option.none⟩).nextId
        = (eraseMoveUpdate (s.annotations p) s.nextId p st ⟨x, y⟩).2)
    ∧ ((handleToolInteraction s ⟨.mousemove, some p, x, y, Option.none⟩).startCoords
        = some st)
    ∧ ((handleToolInteraction s ⟨.mousemove, some p, x, y, Option.none⟩).isDrawing
        = true) := by
  unfold handleToolInteraction
  rw [if_neg (by rw [htool]; exact fun h => Tool.noConfusion h)]
  simp only [hc, hx, clamp_left c x hbx hbx2, clamp_top c y hby hby2]
  unfold doMousemove
  rw [hdraw, if_pos rfl, htool]
  rw [if_neg (fun h => Tool.noConfusion h), if_pos rfl, hst]
  simp [setAnns]

/-- A `mouseup` with the erase tool commits nothing: the annotation store
is untouched by the release. -/
theorem interact_erase_up (s : EditorState) (p : Nat) (c : Surface)
    (x y : ℤ) (pr : Option String)
    (htool : s.activeTool = .erase) (hc : s.canvases p = some c)
    (hx : s.contexts p = true) :
    (handleToolInteraction s ⟨.mouseup, some p, x, y, pr⟩).annotations
      = s.annotations := by
  unfold handleToolInteraction
  rw [if_neg (by rw [htool]; exact fun h => Tool.noConfusion h)]
  simp only [hc, hx]
  unfold doMouseup
  cases hst : s.startCoords with
  | none => simp
  | some st =>
      rw [htool]
      simp

/-- A `mouseup` with the blur tool commits a blur region exactly when the
drag exceeded the 5-pixel threshold on at least one axis. -/
theorem interact_blur_up (s : EditorState) (p : Nat) (c : Surface)
    (x y : ℤ) (pr : Option String) (st : Point)
    (htool : s.activeTool = .blur) (hc : s.canvases p = some c)
    (hx : s.contexts p = true) (hst : s.startCoords = some st)
    (hbx : 0 ≤ x) (hbx2 : x ≤ c.width) (hby : 0 ≤ y) (hby2 : y ≤ c.height) :
    (handleToolInteraction s ⟨.mouseup, some p, x, y, pr⟩).annotations p
      = (if abs (st.x - x) > 5 ∨ abs (st.y - y) > 5
         then s.annotations p ++ [⟨s.nextId, p, .blurRegion st.x st.y x y⟩]
         else s.annotations p) := by
  unfold handleToolInteraction
  rw [if_neg (by rw [htool]; exact fun h => Tool.noConfusion h)]
  simp only [hc, hx, clamp_left c x hbx hbx2, clamp_top c y hby hby2]
  unfold doMouseup
  rw [hst, htool]
  by_cases hth : abs (st.x - x) > 5 ∨ abs (st.y - y) > 5
  · simp [hth, setAnns]
  · simp [hth, setAnns]

/-- The branch taken by `eraseMoveUpdate` when the page's list does not
end in an erase stroke: a fresh two-point stroke is appended. -/
theorem eraseMoveUpdate_new (anns : List Annot) (n p : Nat) (st bpt : Point)
    (h : ∀ a ∈ anns.getLast?, a.isErase = false) :
    eraseMoveUpdate anns n p st bpt
      = (anns ++ [⟨n, p, .eraseStroke [st, bpt]⟩], n + 1) := by
  unfold eraseMoveUpdate
  cases hl : anns.getLast? with
  | none => rfl
  | some lastAnn =>
      obtain ⟨i, pg, d⟩ := lastAnn
      have hlast := h ⟨i, pg, d⟩ (by rw [hl]; exact rfl)
      cases d with
      | eraseStroke path => simp [Annot.isErase] at hlast
      | blurRegion sx sy ex ey => rfl
      | textLabel tx ty t => rfl

/-- The branch taken by `eraseMoveUpdate` when the page's list ends in an
erase stroke: that stroke's path is extended in place. -/
theorem eraseMoveUpdate_extend (anns : List Annot) (n p : Nat) (st bpt : Point)
    (i pg : Nat) (path : List Point)
    (hl : anns.getLast? = some ⟨i, pg, .eraseStroke path⟩) :
    eraseMoveUpdate anns n p st bpt
      = (anns.dropLast ++ [⟨i, pg, .eraseStroke (path ++ [bpt])⟩], n) := by
  unfold eraseMoveUpdate
  rw [hl]

/-- C3: for every blur gesture pressed at `(sx, sy)` and released at
`(ex, ey)` on a live page (coordinates inside the surface box), a
blur-region annotation is committed if and only if `|sx−ex| > 5` or
`|sy−ey| > 5`: the store gains exactly the one record
`blurRegion sx sy ex ey` in the first case and nothing otherwise. -/
theorem blur_commit_threshold (s : EditorState) (p : Nat) (c : Surface)
    (sx sy ex ey : ℤ)
    (htool : s.activeTool = .blur) (hc : s.canvases p = some c)
    (hx : s.contexts p = true)
    (hsx : 0 ≤ sx) (hsx2 : sx ≤ c.width) (hsy : 0 ≤ sy) (hsy2 : sy ≤ c.height)
    (hex : 0 ≤ ex) (hex2 : ex ≤ c.width) (hey : 0 ≤ ey) (hey2 : ey ≤ c.height) :
    (applyEvents s [⟨.mousedown, some p, sx, sy, Option.none⟩,
        ⟨.mouseup, some p, ex, ey, Option.none⟩]).annotations p
      = (if abs (sx - ex) > 5 ∨ abs (sy - ey) > 5
         then s.annotations p ++ [⟨s.nextId, p, .blurRegion sx sy ex ey⟩]
         else s.annotations p) := by
  unfold applyEvents
  simp only [List.foldl_cons, List.foldl_nil]
  rw [interact_mousedown_eq s p c sx sy (by rw [htool]; exact fun h => Tool.noConfusion h)
    hc hx hsx hsx2 hsy hsy2]
  exact interact_blur_up _ p c ex ey Option.none ⟨sx, sy⟩ htool hc hx rfl
    hex hex2 hey hey2

/-- Witness for C3: on a fresh 100×100 page with the blur tool, a drag
from (0,0) to (6,0) — `|dx| = 6`, `|dy| = 0` — commits exactly one blur
region. -/
theorem blur_commit_threshold_witness :
    ((runOps [Op.registryUpdate (fun q => if q = 0 then some ⟨100, 100, true⟩ else Option.none),
        Op.toolChange .blur]).activeTool = .blur)
    ∧ ((runOps [Op.registryUpdate (fun q => if q = 0 then some ⟨100, 100, true⟩ else Option.none),
        Op.toolChange .blur]).canvases 0 = some ⟨100, 100, true, .crosshair, []⟩)
    ∧ ((applyEvents
        (runOps [Op.registryUpdate (fun q => if q = 0 then some ⟨100, 100, true⟩ else Option.none),
          Op.toolChange .blur])
        [⟨.mousedown, some 0, 0, 0, Option.none⟩,
         ⟨.mouseup, some 0, 6, 0, Option.none⟩]).annotations 0
      = [⟨0, 0, .blurRegion 0 0 6 0⟩]) :=
  ⟨by decide, by decide,
   (blur_commit_threshold
      (runOps [Op.registryUpdate (fun q => if q = 0 then some ⟨100, 100, true⟩ else Option.none),
        Op.toolChange .blur])
      0 ⟨100, 100, true, .crosshair, []⟩ 0 0 6 0
      (by decide) (by decide) (by decide)
      (by decide) (by decide) (by decide) (by decide)
      (by decide) (by decide) (by decide) (by decide)).trans (by decide)⟩

/-- C2 counterexample: when the page's annotation list already ends in an
erase stroke (here from an earlier erase gesture), a fresh erase gesture
press (10,10) → move (20,10) → move (20,20) → release does NOT create a
new record with points [(10,10),(20,10),(20,20)]: the code's lazy-create
test only inspects the last stored record, so the new gesture's points are
appended to the PREVIOUS stroke (losing the new start point) and the store
gains zero records. -/
theorem erase_gesture_cx :
    ((runOps [Op.registryUpdate (fun q => if q = 0 then some ⟨100, 100, true⟩ else Option.none),
        Op.toolChange .erase,
        Op.interact ⟨.mousedown, some 0, 0, 0, Option.none⟩,
        Op.interact ⟨.mousemove, some 0, 1, 1, Option.none⟩,
        Op.interact ⟨.mouseup, some 0, 1, 1, Option.none⟩,
        Op.interact ⟨.mousedown, some 0, 10, 10, Option.none⟩,
        Op.interact ⟨.mousemove, some 0, 20, 10, Option.none⟩,
        Op.interact ⟨.mousemove, some 0, 20, 20, Option.none⟩,
        Op.interact ⟨.mouseup, some 0, 20, 20, Option.none⟩]).annotations 0
      = [⟨0, 0, .eraseStroke [⟨0, 0⟩, ⟨1, 1⟩, ⟨20, 10⟩, ⟨20, 20⟩]⟩])
    ∧ (∀ a ∈ (runOps [Op.registryUpdate (fun q => if q = 0 then some ⟨100, 100, true⟩ else Option.none),
        Op.toolChange .erase,
        Op.interact ⟨.mousedown, some 0, 0, 0, Option.none⟩,
        Op.interact ⟨.mousemove, some 0, 1, 1, Option.none⟩,
        Op.interact ⟨.mouseup, some 0, 1, 1, Option.none⟩,
        Op.interact ⟨.mousedown, some 0, 10, 10, Option.none⟩,
        Op.interact ⟨.mousemove, some 0, 20, 10, Option.none⟩,
        Op.interact ⟨.mousemove, some 0, 20, 20, Option.none⟩,
        Op.interact ⟨.mouseup, some 0, 20, 20, Option.none⟩]).annotations 0,
        ¬ a.data = .eraseStroke [⟨10, 10⟩, ⟨20, 10⟩, ⟨20, 20⟩]) := by
  constructor
  · decide
  · decide

/-- C2 (amended): an erase gesture press (10,10) → move (20,10) → move
(20,20) → release on a live page whose annotation list does not already
end in an erase stroke adds exactly one new erase-stroke record with point
sequence [(10,10),(20,10),(20,20)]: created lazily on the first move,
extended on the second, with the release adding nothing. -/
theorem erase_gesture_single_stroke (s : EditorState) (p : Nat) (c : Surface)
    (htool : s.activeTool = .erase) (hc : s.canvases p = some c)
    (hx : s.contexts p = true) (hw : 20 ≤ c.width) (hh : 20 ≤ c.height)
    (hlast : ∀ a ∈ (s.annotations p).getLast?, a.isErase = false) :
    (applyEvents s
      [⟨.mousedown, some p, 10, 10, Option.none⟩,
       ⟨.mousemove, some p, 20, 10, Option.none⟩,
       ⟨.mousemove, some p, 20, 20, Option.none⟩,
       ⟨.mouseup, some p, 20, 20, Option.none⟩]).annotations p
    = s.annotations p
        ++ [⟨s.nextId, p, .eraseStroke [⟨10, 10⟩, ⟨20, 10⟩, ⟨20, 20⟩]⟩] := by
  unfold applyEvents
  simp only [List.foldl_cons, List.foldl_nil]
  -- event 1: mousedown arms the gesture at (10,10)
  rw [interact_mousedown_eq s p c 10 10 (by rw [htool]; exact fun h => Tool.noConfusion h)
    hc hx (by omega) (by omega) (by omega) (by omega)]
  generalize hS1 : ({ s with isDrawing := true, startCoords := some ⟨10, 10⟩, currentCoords := some ⟨10, 10⟩ } : EditorState) = S1
  have hS1tool : S1.activeTool = .erase := by rw [← hS1]; exact htool
  have hS1c : S1.canvases p = some c := by rw [← hS1]; exact hc
  have hS1x : S1.contexts p = true := by rw [← hS1]; exact hx
  have hS1draw : S1.isDrawing = true := by rw [← hS1]
  have hS1st : S1.startCoords = some ⟨10, 10⟩ := by rw [← hS1]
  have hS1anns : S1.annotations = s.annotations := by rw [← hS1]
  have hS1id : S1.nextId = s.nextId := by rw [← hS1]
  -- event 2: first move lazily creates the stroke [(10,10),(20,10)]
  obtain ⟨hT1ann, hT1id, hT1st, hT1draw⟩ :=
    interact_erase_move S1 p c 20 10 ⟨10, 10⟩ hS1tool hS1c hS1x hS1draw hS1st
      (by omega) (by omega) (by omega) (by omega)
  rw [hS1anns, hS1id, eraseMoveUpdate_new _ _ _ _ _ hlast] at hT1ann hT1id
  -- facts about the state after the first move
  generalize hT1 :
    handleToolInteraction S1 ⟨.mousemove, some p, 20, 10, Option.none⟩ = T1
      at hT1ann hT1id hT1st hT1draw ⊢
  have hT1tool : T1.activeTool = .erase := by
    rw [← hT1, interact_activeTool]; exact hS1tool
  have hT1ctx : T1.contexts p = true := by
    rw [← hT1, interact_contexts]; exact hS1x
  have hshape1 : (S1.canvases p).map Surface.shape = (T1.canvases p).map Surface.shape := by
    rw [← hT1]
    exact (interact_canvases_shape S1 ⟨.mousemove, some p, 20, 10, Option.none⟩ p).symm
  obtain ⟨c1, hT1c, hcw1, hch1, _, _⟩ := shape_eq_elim hshape1 hS1c
  -- event 3: second move extends the stroke with (20,20)
  obtain ⟨hT2ann, hT2id, hT2st, hT2draw⟩ :=
    interact_erase_move T1 p c1 20 20 ⟨10, 10⟩ hT1tool hT1c hT1ctx hT1draw hT1st
      (by omega) (by rw [← hcw1]; omega)
      (by omega) (by rw [← hch1]; omega)
  rw [hT1ann] at hT2ann
  rw [eraseMoveUpdate_extend _ _ _ _ _ s.nextId p [⟨10, 10⟩, ⟨20, 10⟩]
      (List.getLast?_concat _)] at hT2ann
  rw [List.dropLast_concat] at hT2ann
  generalize hT2 :
    handleToolInteraction T1 ⟨.mousemove, some p, 20, 20, Option.none⟩ = T2
      at hT2ann hT2id hT2st hT2draw ⊢
  have hT2tool : T2.activeTool = .erase := by
    rw [← hT2, interact_activeTool]; exact hT1tool
  have hT2ctx : T2.contexts p = true := by
    rw [← hT2, interact_contexts]; exact hT1ctx
  have hshape2 : (T1.canvases p).map Surface.shape = (T2.canvases p).map Surface.shape := by
    rw [← hT2]
    exact (interact_canvases_shape T1 ⟨.mousemove, some p, 20, 20, Option.none⟩ p).symm
  obtain ⟨c2, hT2c, _, _, _, _⟩ := shape_eq_elim hshape2 hT1c
  -- event 4: the release commits nothing further
  rw [interact_erase_up T2 p c2 20 20 Option.none hT2tool hT2c hT2ctx]
  rw [hT2ann]
  simp

/-- Witness for C2 (amended): the gesture on a fresh, empty 100×100 page
yields exactly the one stroke [(10,10),(20,10),(20,20)]. -/
theorem erase_gesture_single_stroke_witness :
    ((runOps [Op.registryUpdate (fun q => if q = 0 then some ⟨100, 100, true⟩ else Option.none),
        Op.toolChange .erase]).annotations 0 = [])
    ∧ ((applyEvents
        (runOps [Op.registryUpdate (fun q => if q = 0 then some ⟨100, 100, true⟩ else Option.none),
          Op.toolChange .erase])
        [⟨.mousedown, some 0, 10, 10, Option.none⟩,
         ⟨.mousemove, some 0, 20, 10, Option.none⟩,
         ⟨.mousemove, some 0, 20, 20, Option.none⟩,
         ⟨.mouseup, some 0, 20, 20, Option.none⟩]).annotations 0
      = [⟨0, 0, .eraseStroke [⟨10, 10⟩, ⟨20, 10⟩, ⟨20, 20⟩]⟩]) :=
  ⟨by decide,
   (erase_gesture_single_stroke
      (runOps [Op.registryUpdate (fun q => if q = 0 then some ⟨100, 100, true⟩ else Option.none),
        Op.toolChange .erase])
      0 ⟨100, 100, true, .crosshair, []⟩
      (by decide) (by decide) (by decide) (by decide) (by decide)
      (by
        intro a ha
        rw [show (runOps [Op.registryUpdate (fun q => if q = 0 then some ⟨100, 100, true⟩ else Option.none),
          Op.toolChange .erase]).annotations 0 = [] from by decide] at ha
        simp at ha)).trans (by decide)⟩

/-! ### Tool-switch claims -/

@[simp]
theorem handleToolChange_annotations (s : EditorState) (t : Tool) :
    (handleToolChange s t).annotations = s.annotations := by
  unfold handleToolChange
  split <;> rfl

@[simp]
theorem handleToolChange_activeTool (s : EditorState) (t : Tool) :
    (handleToolChange s t).activeTool = t := by
  unfold handleToolChange
  split <;> rfl

theorem handleToolChange_containers (s : EditorState) (t : Tool) (p : Nat) :
    (handleToolChange s t).containers p =
      match s.canvases p, s.containers p with
      | some _, some cont =>
          some ({ cont with textLayerPointerEvents := !isDrawingTool t })
      | _, _ => s.containers p := by
  unfold handleToolChange
  split <;> rfl

/-- C4 counterexample: a tool switch from blur to erase in the middle of a
drag does NOT force the gesture machine back to Idle — the reset in
`handleToolChange` only fires when the new tool is not a drawing tool, so
the active flag and start point survive the switch. -/
theorem toolswitch_mid_drag_cx :
    ((runOps [Op.registryUpdate (fun q => if q = 0 then some ⟨100, 100, true⟩ else Option.none),
        Op.toolChange .blur,
        Op.interact ⟨.mousedown, some 0, 10, 10, Option.none⟩,
        Op.toolChange .erase]).isDrawing = true)
    ∧ ((runOps [Op.registryUpdate (fun q => if q = 0 then some ⟨100, 100, true⟩ else Option.none),
        Op.toolChange .blur,
        Op.interact ⟨.mousedown, some 0, 10, 10, Option.none⟩,
        Op.toolChange .erase]).startCoords = some ⟨10, 10⟩)
    ∧ ((runOps [Op.registryUpdate (fun q => if q = 0 then some ⟨100, 100, true⟩ else Option.none),
        Op.toolChange .blur,
        Op.interact ⟨.mousedown, some 0, 10, 10, Option.none⟩,
        Op.toolChange .erase]).activeTool = .erase) := by
  refine ⟨?_, ?_, ?_⟩ <;> decide

/-- C4 (amended): only a switch to the `none` tool while a drag is active
forces the gesture machine back to Idle — active flag cleared, start and
current points discarded; switches between drawing tools keep the gesture
state.  Any tool switch leaves the committed annotations of live pages in
place (in particular erase points already in the store), and redraws every
surviving surface from the store, which discards the uncommitted blur
preview pixels. -/
theorem toolswitch_to_none_forces_idle (s : EditorState) (t : Tool) :
    ((applyToolChange s .none).isDrawing = false)
    ∧ ((applyToolChange s .none).startCoords = Option.none)
    ∧ ((applyToolChange s .none).currentCoords = Option.none)
    ∧ (∀ p, (s.containers p).isSome →
        (applyToolChange s t).annotations p = s.annotations p)
    ∧ (∀ p c, (applyToolChange s t).canvases p = some c →
        c.content = renderAnnotations (s.annotations p)) := by
  refine ⟨rfl, rfl, rfl, ?_, ?_⟩
  · intro p hp
    simp only [applyToolChange, canvasLifecycle, handleToolChange_annotations]
    rw [handleToolChange_containers]
    cases hcv : s.canvases p <;> cases hco : s.containers p <;> simp_all
  · intro p c hpc
    simp only [applyToolChange, canvasLifecycle] at hpc
    cases hco : (handleToolChange s t).containers p with
    | none => rw [hco] at hpc; exact absurd hpc (by simp)
    | some cont =>
        rw [hco] at hpc
        simp only [Option.some.injEq] at hpc
        rw [← hpc]
        simp [lifecyclePage]

/-- Witness for C4 (amended): after an erase gesture committed points and
a drag is re-armed, switching to `none` goes Idle and keeps the stroke. -/
theorem toolswitch_to_none_forces_idle_witness :
    (((runOps [Op.registryUpdate (fun q => if q = 0 then some ⟨100, 100, true⟩ else Option.none),
        Op.toolChange .erase,
        Op.interact ⟨.mousedown, some 0, 0, 0, Option.none⟩,
        Op.interact ⟨.mousemove, some 0, 5, 5, Option.none⟩]).containers 0).isSome = true)
    ∧ ((applyToolChange
        (runOps [Op.registryUpdate (fun q => if q = 0 then some ⟨100, 100, true⟩ else Option.none),
          Op.toolChange .erase,
          Op.interact ⟨.mousedown, some 0, 0, 0, Option.none⟩,
          Op.interact ⟨.mousemove, some 0, 5, 5, Option.none⟩]) .none).isDrawing = false)
    ∧ ((applyToolChange
        (runOps [Op.registryUpdate (fun q => if q = 0 then some ⟨100, 100, true⟩ else Option.none),
          Op.toolChange .erase,
          Op.interact ⟨.mousedown, some 0, 0, 0, Option.none⟩,
          Op.interact ⟨.mousemove, some 0, 5, 5, Option.none⟩]) .none).annotations 0
      = (runOps [Op.registryUpdate (fun q => if q = 0 then some ⟨100, 100, true⟩ else Option.none),
          Op.toolChange .erase,
          Op.interact ⟨.mousedown, some 0, 0, 0, Option.none⟩,
          Op.interact ⟨.mousemove, some 0, 5, 5, Option.none⟩]).annotations 0) :=
  ⟨by decide,
   (toolswitch_to_none_forces_idle
      (runOps [Op.registryUpdate (fun q => if q = 0 then some ⟨100, 100, true⟩ else Option.none),
        Op.toolChange .erase,
        Op.interact ⟨.mousedown, some 0, 0, 0, Option.none⟩,
        Op.interact ⟨.mousemove, some 0, 5, 5, Option.none⟩]) .none).1,
   (toolswitch_to_none_forces_idle
      (runOps [Op.registryUpdate (fun q => if q = 0 then some ⟨100, 100, true⟩ else Option.none),
        Op.toolChange .erase,
        Op.interact ⟨.mousedown, some 0, 0, 0, Option.none⟩,
        Op.interact ⟨.mousemove, some 0, 5, 5, Option.none⟩]) .none).2.2.2.1 0
     (by decide)⟩

theorem applyToolChange_routing (s : EditorState) (t : Tool) (hinv : Inv s)
    (p : Nat) (c : Surface) (cont : Container)
    (hpc : (applyToolChange s t).canvases p = some c)
    (hcont : (applyToolChange s t).containers p = some cont) :
    c.pointerEvents = isDrawingTool t
      ∧ cont.textLayerPointerEvents = !isDrawingTool t := by
  have hco : (handleToolChange s t).containers p = some cont := hcont
  constructor
  · simp only [applyToolChange, canvasLifecycle, hco] at hpc
    simp only [Option.some.injEq] at hpc
    rw [← hpc]
    simp [lifecyclePage]
  · rw [handleToolChange_containers] at hco
    cases hcv : s.canvases p with
    | some c0 =>
        cases hcs : s.containers p with
        | some cont0 =>
            rw [hcv, hcs] at hco
            simp only [Option.some.injEq] at hco
            rw [← hco]
        | none =>
            rw [hcv, hcs] at hco
            exact absurd hco (by simp)
    | none =>
        cases hcs : s.containers p with
        | none =>
            rw [hcv, hcs] at hco
            exact absurd hco (by simp)
        | some cont0 =>
            have h1 := (hinv p).1
            rw [hcv, hcs] at h1
            simp at h1

/-- C5 (corrected): the surface side of the claim is a true invariant:
after any operation sequence, every live surface accepts pointer input
exactly when the current tool is a drawing tool ({blur, erase, addText}).
The text-layer side is not: a tool switch inverts the text layer of
exactly those pages that already had a live surface when the switch ran
(and are in the current mapping), so full mutual exclusivity holds
immediately after a tool change only when the surface set was in sync
with the latest emitted mapping at that moment — i.e. when some render
(tool or selection change) already happened since the last emission.  A
page emitted after the last render keeps its default (accepting) text
layer through its first tool change, because `handleToolChange` iterates
the lagging canvas map — see the counterexample. -/
theorem pointer_input_routing (ops : List Op) (t : Tool) :
    (∀ p c, (runOps ops).canvases p = some c →
        c.pointerEvents = isDrawingTool (runOps ops).activeTool)
    ∧ (∀ p cpre cont, (runOps ops).canvases p = some cpre →
        (runOps (ops ++ [Op.toolChange t])).containers p = some cont →
        cont.textLayerPointerEvents = !isDrawingTool t)
    ∧ (Inv (runOps ops) →
        ∀ p c cont,
          (runOps (ops ++ [Op.toolChange t])).canvases p = some c →
          (runOps (ops ++ [Op.toolChange t])).containers p = some cont →
          c.pointerEvents = isDrawingTool t
            ∧ cont.textLayerPointerEvents = !isDrawingTool t) := by
  have hrun : runOps (ops ++ [Op.toolChange t]) = applyToolChange (runOps ops) t := by
    unfold runOps
    rw [List.foldl_append]
    rfl
  refine ⟨?_, ?_, ?_⟩
  · intro p c hpc
    exact ((PEInv_runOps ops p).2) c hpc
  · intro p cpre cont hpre hcont
    rw [hrun] at hcont
    have hco : (handleToolChange (runOps ops) t).containers p = some cont := hcont
    rw [handleToolChange_containers, hpre] at hco
    cases hcs : (runOps ops).containers p with
    | some cont0 =>
        rw [hcs] at hco
        simp only [Option.some.injEq] at hco
        rw [← hco]
    | none =>
        rw [hcs] at hco
        exact absurd hco (by simp)
  · intro hinv p c cont hpc hcont
    rw [hrun] at hpc hcont
    exact applyToolChange_routing (runOps ops) t hinv p c cont hpc hcont

/-- C5 counterexample: page 0 is emitted and the user then selects the
blur tool.  `handleToolChange` iterates `canvasRefs.current`, which is
still empty (the emission never re-rendered), so no text layer is
touched; the render then makes the lifecycle effect create page 0's
surface with pointer acceptance on.  Immediately after this tool change
the surface accepts input AND the text layer keeps its default
acceptance — the two acceptance states are not mutually exclusive. -/
theorem pointer_input_routing_cx :
    (((runOps [Op.registryUpdate (fun q => if q = 0 then some ⟨100, 100, true⟩ else Option.none),
        Op.toolChange .blur]).canvases 0).map
          Surface.pointerEvents = some true)
    ∧ (((runOps [Op.registryUpdate (fun q => if q = 0 then some ⟨100, 100, true⟩ else Option.none),
        Op.toolChange .blur]).containers 0).map
          Container.textLayerPointerEvents = some true)
    ∧ (isDrawingTool (runOps [Op.registryUpdate (fun q => if q = 0 then some ⟨100, 100, true⟩ else Option.none),
        Op.toolChange .blur]).activeTool = true) := by
  refine ⟨?_, ?_, ?_⟩ <;> decide

/-- Witness for C5: page 0 is mounted, a first render (tool change to
`none`) syncs the surface set, and the next switch to blur then yields
the exclusive state: surface accepting, text layer not. -/
theorem pointer_input_routing_witness :
    Inv (runOps [Op.registryUpdate (fun q => if q = 0 then some ⟨100, 100, true⟩ else Option.none),
        Op.toolChange .none])
    ∧ ((runOps ([Op.registryUpdate (fun q => if q = 0 then some ⟨100, 100, true⟩ else Option.none),
          Op.toolChange .none] ++ [Op.toolChange .blur])).canvases 0
        = some ⟨100, 100, true, .crosshair, []⟩)
    ∧ ((runOps ([Op.registryUpdate (fun q => if q = 0 then some ⟨100, 100, true⟩ else Option.none),
          Op.toolChange .none] ++ [Op.toolChange .blur])).containers 0
        = some ⟨100, 100, false⟩)
    ∧ ((⟨100, 100, true, .crosshair, []⟩ : Surface).pointerEvents = isDrawingTool .blur
        ∧ (⟨100, 100, false⟩ : Container).textLayerPointerEvents = !isDrawingTool .blur) :=
  ⟨Inv_canvasLifecycle
     (handleToolChange
       (runOps [Op.registryUpdate (fun q => if q = 0 then some ⟨100, 100, true⟩ else Option.none)])
       .none),
   by decide, by decide,
   (pointer_input_routing
      [Op.registryUpdate (fun q => if q = 0 then some ⟨100, 100, true⟩ else Option.none),
       Op.toolChange .none]
      .blur).2.2
     (Inv_canvasLifecycle
       (handleToolChange
         (runOps [Op.registryUpdate (fun q => if q = 0 then some ⟨100, 100, true⟩ else Option.none)])
         .none))
     0 ⟨100, 100, true, .crosshair, []⟩ ⟨100, 100, false⟩
     (by decide) (by decide)⟩

/-! ### Coordinate clamping (C10) -/

@[simp]
theorem setAnns_same (f : Nat → List Annot) (p : Nat) (l : List Annot) :
    setAnns f p l p = l := by
  simp [setAnns]

theorem clamp_inBox (w h x y : ℤ) (h0w : 0 ≤ w) (h0h : 0 ≤ h) :
    inBox w h ⟨max 0 (min x w), max 0 (min y h)⟩ :=
  ⟨le_max_left _ _, max_le h0w (min_le_right _ _),
   le_max_left _ _, max_le h0h (min_le_right _ _)⟩

theorem box_append_new (w h : ℤ) (anns : List Annot) (n p : Nat)
    (st bpt : Point)
    (hanns : ∀ a ∈ anns, annDataInBox w h a.data)
    (hstb : inBox w h st) (hb : inBox w h bpt) :
    ∀ a ∈ anns ++ [(⟨n, p, .eraseStroke [st, bpt]⟩ : Annot)],
      annDataInBox w h a.data := by
  intro a ha
  rcases List.mem_append.mp ha with h1 | h2
  · exact hanns a h1
  · rw [List.mem_singleton] at h2
    subst h2
    intro pt hpt
    rcases List.mem_cons.mp hpt with rfl | hpt2
    · exact hstb
    · rcases List.mem_cons.mp hpt2 with rfl | hpt3
      · exact hb
      · exact absurd hpt3 (List.not_mem_nil pt)

theorem eraseMoveUpdate_box (w h : ℤ) (anns : List Annot) (n p : Nat)
    (st bpt : Point)
    (hanns : ∀ a ∈ anns, annDataInBox w h a.data)
    (hstb : inBox w h st) (hb : inBox w h bpt) :
    ∀ a ∈ (eraseMoveUpdate anns n p st bpt).1, annDataInBox w h a.data := by
  cases hl : anns.getLast? with
  | none =>
      rw [eraseMoveUpdate_new anns n p st bpt (by rw [hl]; simp)]
      exact box_append_new w h anns n p st bpt hanns hstb hb
  | some lastAnn =>
      obtain ⟨i, pg, d⟩ := lastAnn
      cases d with
      | eraseStroke path =>
          rw [eraseMoveUpdate_extend anns n p st bpt i pg path hl]
          intro a ha
          rcases List.mem_append.mp ha with h1 | h2
          · exact hanns a (List.mem_of_mem_dropLast h1)
          · rw [List.mem_singleton] at h2
            subst h2
            have hmem : (⟨i, pg, .eraseStroke path⟩ : Annot) ∈ anns := by
              have hsplit := List.dropLast_append_getLast?
                (l := anns) ⟨i, pg, .eraseStroke path⟩ (by rw [hl]; rfl)
              rw [← hsplit]
              exact List.mem_append_right _ (List.mem_singleton_self _)
            have hpath := hanns _ hmem
            intro pt hpt
            rcases List.mem_append.mp hpt with hp1 | hp2
            · exact hpath pt hp1
            · rw [List.mem_singleton] at hp2
              subst hp2
              exact hb
      | blurRegion bx1 by1 bx2 by2 =>
          rw [eraseMoveUpdate_new anns n p st bpt
            (by rw [hl]; intro a ha; simp at ha; subst ha; rfl)]
          exact box_append_new w h anns n p st bpt hanns hstb hb
      | textLabel tx ty tt =>
          rw [eraseMoveUpdate_new anns n p st bpt
            (by rw [hl]; intro a ha; simp at ha; subst ha; rfl)]
          exact box_append_new w h anns n p st bpt hanns hstb hb

theorem doMousedown_box (w h : ℤ) (s : EditorState) (p : Nat) (bpt : Point)
    (hanns : ∀ a ∈ s.annotations p, annDataInBox w h a.data)
    (hb : inBox w h bpt) :
    (∀ a ∈ (doMousedown s bpt).annotations p, annDataInBox w h a.data)
    ∧ (∀ pt, (doMousedown s bpt).startCoords = some pt → inBox w h pt) := by
  refine ⟨hanns, ?_⟩
  intro pt hpt
  simp only [doMousedown, Option.some.injEq] at hpt
  rw [← hpt]
  exact hb

theorem doMousemove_box (w h : ℤ) (s : EditorState) (p : Nat) (bpt : Point)
    (hanns : ∀ a ∈ s.annotations p, annDataInBox w h a.data)
    (hst : ∀ pt, s.startCoords = some pt → inBox w h pt)
    (hb : inBox w h bpt) :
    (∀ a ∈ (doMousemove s p bpt).annotations p, annDataInBox w h a.data)
    ∧ (∀ pt, (doMousemove s p bpt).startCoords = some pt → inBox w h pt) := by
  unfold doMousemove
  by_cases hd : s.isDrawing
  · rw [if_pos hd]
    by_cases hblur : s.activeTool = .blur
    · rw [if_pos hblur]
      cases hsc : s.startCoords with
      | none => exact ⟨by simpa using hanns, by simp [hsc]⟩
      | some st =>
          constructor
          · intro a ha
            simp only [blurPreview_annotations, redraw_annotations] at ha
            exact hanns a ha
          · intro pt hpt
            simp only [blurPreview_startCoords, redraw_startCoords] at hpt
            exact hst pt (by rw [← hpt, hsc])
    · rw [if_neg hblur]
      by_cases herase : s.activeTool = .erase
      · rw [if_pos herase]
        cases hsc : s.startCoords with
        | none => exact ⟨by simpa using hanns, by simp [hsc]⟩
        | some st =>
            constructor
            · intro a ha
              simp only [redraw_annotations, redraw_nextId, setAnns, if_true] at ha
              exact eraseMoveUpdate_box w h (s.annotations p) s.nextId p st bpt
                hanns (hst st hsc) hb a ha
            · intro pt hpt
              simp only [redraw_startCoords] at hpt
              exact hst pt (by rw [← hpt, hsc])
      · rw [if_neg herase]
        exact ⟨by simpa using hanns, by simpa using hst⟩
  · rw [if_neg hd]
    exact ⟨hanns, hst⟩

theorem doMouseup_box (w h : ℤ) (s : EditorState) (p : Nat) (bpt : Point)
    (pr : Option String)
    (hanns : ∀ a ∈ s.annotations p, annDataInBox w h a.data)
    (hst : ∀ pt, s.startCoords = some pt → inBox w h pt)
    (hb : inBox w h bpt) :
    (∀ a ∈ (doMouseup s p bpt pr).annotations p, annDataInBox w h a.data)
    ∧ (∀ pt, (doMouseup s p bpt pr).startCoords = some pt → inBox w h pt) := by
  unfold doMouseup
  refine ⟨?_, ?_⟩
  · intro a ha
    simp only [redraw_annotations] at ha
    cases hsc : s.startCoords with
    | none =>
        rw [hsc] at ha
        exact hanns a ha
    | some st =>
        rw [hsc] at ha
        have hstb : inBox w h st := hst st hsc
        by_cases hblur : s.activeTool = .blur
        · rw [hblur] at ha
          by_cases hth : abs (st.x - bpt.x) > 5 ∨ abs (st.y - bpt.y) > 5
          · simp only [if_pos hth, if_true, setAnns, List.mem_append,
              List.mem_singleton] at ha
            rcases ha with h1 | h2
            · exact hanns a h1
            · rw [h2]
              exact ⟨hstb, hb⟩
          · simp only [if_neg hth] at ha
            simp at ha
            exact hanns a ha
        · by_cases haddt : s.activeTool = .addText
          · rw [haddt] at ha
            simp only at ha
            cases hpr : pr with
            | none =>
                rw [hpr] at ha
                simp at ha
                exact hanns a ha
            | some t =>
                rw [hpr] at ha
                have hko : ¬((Tool.addText : Tool) = Tool.blur) := by decide
                by_cases ht : t = ""
                · simp only [if_neg hko, if_pos ht] at ha
                  exact hanns a ha
                · simp only [if_neg hko, if_neg ht, setAnns, if_true,
                    List.mem_append, List.mem_singleton] at ha
                  rcases ha with h1 | h2
                  · exact hanns a h1
                  · rw [h2]
                    exact hb
          · simp only [if_neg hblur, if_neg haddt] at ha
            exact hanns a ha
  · intro pt hpt
    simp only [redraw_startCoords] at hpt
    exact absurd hpt (by simp)

/-- One interaction event confined to page `p` keeps every stored
annotation of `p` and the gesture start point inside the page's pixel
box. -/
theorem interact_preserves_box (w h : ℤ) (s : EditorState) (p : Nat)
    (c : Surface) (e : MouseEvent)
    (hc : s.canvases p = some c) (hcw : c.width = w) (hch : c.height = h)
    (h0w : 0 ≤ w) (h0h : 0 ≤ h)
    (hanns : ∀ a ∈ s.annotations p, annDataInBox w h a.data)
    (hst : ∀ pt, s.startCoords = some pt → inBox w h pt)
    (hep : e.pageIndex = some p) :
    (∀ a ∈ (handleToolInteraction s e).annotations p, annDataInBox w h a.data)
    ∧ (∀ pt, (handleToolInteraction s e).startCoords = some pt →
        inBox w h pt) := by
  have hb : inBox w h ⟨max 0 (min e.canvasX c.width), max 0 (min e.canvasY c.height)⟩ := by
    rw [hcw, hch]
    exact clamp_inBox w h e.canvasX e.canvasY h0w h0h
  unfold handleToolInteraction
  by_cases htool : s.activeTool = .none
  · rw [if_pos htool]
    exact ⟨hanns, hst⟩
  · rw [if_neg htool]
    cases hx : s.contexts p with
    | false =>
        simp only [hep, hc, hx]
        exact ⟨hanns, hst⟩
    | true =>
        simp only [hep, hc, hx]
        cases he : e.type with
        | mousedown => exact doMousedown_box w h s p _ hanns hb
        | mousemove => exact doMousemove_box w h s p _ hanns hst hb
        | mouseup => exact doMouseup_box w h s p _ e.promptResult hanns hst hb

/-- C10 (amended): every coordinate is clamped at capture time to the
pixel box of the surface under the pointer; hence for any gesture sequence
whose events all target one page `p` with a live `w × h` surface, every
annotation stored on `p` keeps all its coordinates inside `[0,w] × [0,h]`.
(Coordinates of a cross-page gesture are clamped to the box of the page
each event landed on, which can exceed the committing page's box — see the
counterexample.) -/
theorem coords_clamped_single_page (w h : ℤ) (p : Nat) (es : List MouseEvent) :
    ∀ (s : EditorState) (c : Surface),
      s.canvases p = some c → c.width = w → c.height = h →
      0 ≤ w → 0 ≤ h →
      (∀ a ∈ s.annotations p, annDataInBox w h a.data) →
      (∀ pt, s.startCoords = some pt → inBox w h pt) →
      (∀ e ∈ es, e.pageIndex = some p) →
      ∀ a ∈ (applyEvents s es).annotations p, annDataInBox w h a.data := by
  induction es with
  | nil =>
      intro s c hc hcw hch h0w h0h hanns hst hes
      exact hanns
  | cons e rest ih =>
      intro s c hc hcw hch h0w h0h hanns hst hes
      have hstep := interact_preserves_box w h s p c e hc hcw hch h0w h0h
        hanns hst (hes e (List.mem_cons_self e rest))
      obtain ⟨c', hc', hw', hh', _, _⟩ :=
        shape_eq_elim (interact_canvases_shape s e p).symm hc
      exact ih (handleToolInteraction s e) c' hc'
        (by rw [← hw']; exact hcw) (by rw [← hh']; exact hch) h0w h0h
        hstep.1 hstep.2
        (fun e2 he2 => hes e2 (List.mem_cons_of_mem e he2))

/-- Witness for C10 (amended): an erase gesture entirely on page 0 of a
100×100 surface leaves every stored coordinate inside [0,100]×[0,100]. -/
theorem coords_clamped_single_page_witness :
    ((runOps [Op.registryUpdate (fun q => if q = 0 then some ⟨100, 100, true⟩ else Option.none),
        Op.toolChange .erase]).canvases 0 = some ⟨100, 100, true, .crosshair, []⟩)
    ∧ (∀ a ∈ (applyEvents
        (runOps [Op.registryUpdate (fun q => if q = 0 then some ⟨100, 100, true⟩ else Option.none),
          Op.toolChange .erase])
        [⟨.mousedown, some 0, 10, 10, Option.none⟩,
         ⟨.mousemove, some 0, 250, -30, Option.none⟩,
         ⟨.mouseup, some 0, 250, -30, Option.none⟩]).annotations 0,
        annDataInBox 100 100 a.data) :=
  ⟨by decide,
   coords_clamped_single_page 100 100 0
     [⟨.mousedown, some 0, 10, 10, Option.none⟩,
      ⟨.mousemove, some 0, 250, -30, Option.none⟩,
      ⟨.mouseup, some 0, 250, -30, Option.none⟩]
     (runOps [Op.registryUpdate (fun q => if q = 0 then some ⟨100, 100, true⟩ else Option.none),
       Op.toolChange .erase])
     ⟨100, 100, true, .crosshair, []⟩
     (by decide) (by decide) (by decide) (by decide) (by decide)
     (by decide)
     (by
       intro pt hpt
       rw [show (runOps [Op.registryUpdate (fun q => if q = 0 then some ⟨100, 100, true⟩ else Option.none),
         Op.toolChange .erase]).startCoords = Option.none from by decide] at hpt
       exact absurd hpt (by simp))
     (by decide)⟩

/-- C10 counterexample: a gesture pressed on page 0 (100×100) at (80,80)
and released on page 1 (50×50) commits a blur region on page 1 whose start
corner x = 80 exceeds page 1's surface width 50 — the claim's bound
`x ∈ [0, w]` fails for the committing page. -/
theorem coords_clamped_cx :
    ((runOps [Op.registryUpdate
        (fun q => if q = 0 then some ⟨100, 100, true⟩
                  else if q = 1 then some ⟨50, 50, true⟩ else Option.none),
        Op.toolChange .blur,
        Op.interact ⟨.mousedown, some 0, 80, 80, Option.none⟩,
        Op.interact ⟨.mouseup, some 1, 10, 10, Option.none⟩]).annotations 1
      = [⟨0, 1, .blurRegion 80 80 10 10⟩])
    ∧ (((runOps [Op.registryUpdate
        (fun q => if q = 0 then some ⟨100, 100, true⟩
                  else if q = 1 then some ⟨50, 50, true⟩ else Option.none),
        Op.toolChange .blur,
        Op.interact ⟨.mousedown, some 0, 80, 80, Option.none⟩,
        Op.interact ⟨.mouseup, some 1, 10, 10, Option.none⟩]).canvases 1).map
          Surface.width = some 50)
    ∧ ¬((80 : ℤ) ≤ 50) := by
  refine ⟨?_, ?_, ?_⟩ <;> decide

/-- Witness for C7: a failing fetch yields no file. -/
theorem export_all_or_nothing_witness :
    ((⟨Option.none, fun _ => Option.none, fun _ => Option.none,
        fun _ => Option.none, fun _ => Option.none⟩ : ExportEnv).fetchResult
      = Option.none)
    ∧ handleDownload
        (⟨Option.none, fun _ => Option.none, fun _ => Option.none,
          fun _ => Option.none, fun _ => Option.none⟩ : ExportEnv)
        initState true = Option.none :=
  ⟨rfl,
   (export_all_or_nothing
      (⟨Option.none, fun _ => Option.none, fun _ => Option.none,
        fun _ => Option.none, fun _ => Option.none⟩ : ExportEnv)
      initState true).2.1 rfl⟩

end PdfView

